import Mathlib

set_option autoImplicit false

/-!
Shallow embedding of the code-quality analysis engine
(`code_quality_analyzer`, packages `pyexamine/src` and `src`): the uniform
finding record, the code-smell detector rules, the structural-smell
detector dispatch and rules, the architectural cyclic-dependency detector,
the CSV report writer and the configuration handler, together with
theorems settling the specification claims about them.

Machine reals of the source (thresholds, ratios, weighted metrics) are
modelled as rationals; the values involved are small decimal literals for
which rational arithmetic coincides with the source arithmetic.
-/

namespace PyExamine

/-- The uniform finding record shared by the three smell dataclasses
(`CodeSmell`, `StructuralSmell`, `ArchitecturalSmell`): they have identical
fields.  `moduleClass` and `lineNumber` are optional because the source
passes `None` for them in several rules. -/
structure Smell where
  name : String
  description : String
  filePath : String
  moduleClass : Option String
  lineNumber : Option Nat
  severity : String
deriving Repr, DecidableEq

/-!
String and rational primitives.  The Lean core implementations of the
string operations and of rational multiplication and division do not
reduce inside the kernel, so the embedding uses its own character-list
and `mkRat`-based implementations; the rational ones are proved equal to
the standard operations below (`qMul_eq`, `qAdd_eq`, `qSub_eq`,
`qDiv_eq`).  The identifiers handled by the detectors are ASCII, for
which these implementations agree with the Python string methods they
model.
-/

/-- Character-list prefix test. -/
def listStartsWith : List Char → List Char → Bool
  | _, [] => true
  | [], _ :: _ => false
  | c :: cs, d :: ds => c == d && listStartsWith cs ds

/-- `s.startswith(pat)` -/
def strStartsWith (s pat : String) : Bool :=
  listStartsWith s.data pat.data

/-- `s.endswith(pat)` -/
def strEndsWith (s pat : String) : Bool :=
  listStartsWith s.data.reverse pat.data.reverse

/-- Whether `pat` occurs somewhere in the character list. -/
def listHasSub (l pat : List Char) : Bool :=
  match l with
  | [] => pat.isEmpty
  | _ :: rest => listStartsWith l pat || listHasSub rest pat

/-- Substring containment, modelling the Python `pat in s` operator. -/
def containsSub (s pat : String) : Bool :=
  listHasSub s.data pat.data

/-- The whitespace characters stripped by `str.strip()` on the source
files at hand. -/
def isSpaceChar (c : Char) : Bool :=
  c == ' ' || c == '\t' || c == '\n' || c == '\r'

/-- `s.strip()` -/
def strTrim (s : String) : String :=
  ⟨((s.data.dropWhile isSpaceChar).reverse.dropWhile isSpaceChar).reverse⟩

/-- ASCII lowercasing of one character. -/
def charLower (c : Char) : Char :=
  if 'A' ≤ c ∧ c ≤ 'Z' then Char.ofNat (c.toNat + 32) else c

/-- `s.lower()` for ASCII identifiers. -/
def strLower (s : String) : String :=
  ⟨s.data.map charLower⟩

/-- Strict lexicographic comparison by code point, the Python string
order. -/
def charListLt : List Char → List Char → Bool
  | [], [] => false
  | [], _ :: _ => true
  | _ :: _, [] => false
  | c :: cs, d :: ds => if c == d then charListLt cs ds else decide (c.toNat < d.toNat)

/-- `a < b` on strings. -/
def strLt (a b : String) : Bool :=
  charListLt a.data b.data

/-- Stable sorted insertion for `sorted(...)`. -/
def insertSorted (x : String) : List String → List String
  | [] => [x]
  | y :: ys => if strLt x y then x :: y :: ys else y :: insertSorted x ys

/-- `sorted(...)` over strings (stable insertion sort). -/
def sortStrings (l : List String) : List String :=
  l.foldl (fun acc x => insertSorted x acc) []

/-- Stable insertion for `sorted(..., key=λx. x[1], reverse=True)`. -/
def insertByCountDesc (x : String × Nat) : List (String × Nat) → List (String × Nat)
  | [] => [x]
  | y :: ys => if x.2 > y.2 then x :: y :: ys else y :: insertByCountDesc x ys

/-- Frequency-descending stable sort. -/
def sortByCountDesc (l : List (String × Nat)) : List (String × Nat) :=
  l.foldl (fun acc x => insertByCountDesc x acc) []

/-- `', '.join(...)` -/
def joinComma (l : List String) : String :=
  String.intercalate ", " l

/-- A single-quote character, used inside description strings. -/
def sq : String := "\x27"

/-- Rational multiplication (kernel-reducible; equals `a * b`). -/
def qMul (a b : ℚ) : ℚ :=
  mkRat (a.num * b.num) (a.den * b.den)

/-- Rational addition (kernel-reducible; equals `a + b`). -/
def qAdd (a b : ℚ) : ℚ :=
  mkRat (a.num * b.den + b.num * a.den) (a.den * b.den)

/-- Rational subtraction (kernel-reducible; equals `a - b`). -/
def qSub (a b : ℚ) : ℚ :=
  mkRat (a.num * b.den - b.num * a.den) (a.den * b.den)

/-- Rational division (kernel-reducible; equals `a / b`, with the
Lean convention `a / 0 = 0`; the sources never divide by zero where this
is used). -/
def qDiv (a b : ℚ) : ℚ :=
  if b.num < 0 then mkRat (-(a.num * (b.den : Int))) (a.den * b.num.natAbs)
  else mkRat (a.num * (b.den : Int)) (a.den * b.num.natAbs)

/-- Sum of a list of rationals. -/
def qSum (l : List ℚ) : ℚ :=
  l.foldl qAdd 0

/-- Decimal rendering of a rational with one digit after the point,
modelling the `:.1f` format used in some descriptions.  No theorem in this
file depends on its rounding behaviour; it only makes the finding
descriptions computable. -/
def fmt1 (q : ℚ) : String :=
  let scaled : Int := Int.fdiv (q.num * 20 + (q.den : Int)) (2 * (q.den : Int))
  toString (scaled / 10) ++ "." ++ toString ((scaled % 10).natAbs)

/-- Insert into a list used with set semantics (no duplicates, first
insertion order kept). -/
def sInsert (x : String) (l : List String) : List String :=
  if l.contains x then l else l ++ [x]

/-- Set union: add all elements of `xs` to the set `l`. -/
def sUnion (l xs : List String) : List String :=
  xs.foldl (fun acc x => sInsert x acc) l

/-- Set difference `l - remove`. -/
def sDiff (l remove : List String) : List String :=
  l.filter (fun x => ¬ remove.contains x)

/-!
## Code-smell detector (pyexamine `code_smell_detector.py`)

The detector walks the astroid module object of one file.  The embedding
keeps, for every syntactic object, exactly the data the detector rules
read: decorator shapes, argument names and annotations, line extents, and
the body-derived summaries (`AssignName` targets, `self.<attr>` accesses,
the cache-comment test) that `detect_temporary_fields` extracts with
`nodes_of_class`.  Function bodies are otherwise opaque to the embedded
rules, exactly as they are to the source rules, which never recurse into
them.
-/

/-- A decorator node as the rules case on it: a `nodes.Name`, a
`nodes.Call` whose `func` is a `Name`, a `nodes.Attribute`, or any other
shape. -/
inductive Deco where
  | dName (s : String)
  | dCall (s : String)
  | dAttr (s : String)
  | dOther
deriving Repr, DecidableEq

/-- An item of a function body, kept only to state that the rules do not
look inside bodies: a nested `def` is represented with its name and
size. -/
inductive CBodyItem where
  | plain
  | nestedDef (name : String) (argCount : Nat) (lineCount : Nat)
deriving Repr, DecidableEq

/-- A `nodes.FunctionDef` as read by the code-smell rules (top-level
function or class method). -/
structure CFunc where
  name : String
  decorators : List Deco
  /-- names of `node.args.args` (the positional parameters) -/
  args : List String
  /-- `node.args.annotations`, parallel to `args`; `some t` for a
  `nodes.Name` annotation `t`, `none` for an absent or non-`Name`
  annotation -/
  annotations : List (Option String)
  /-- `node.args.vararg is not None` -/
  hasVararg : Bool
  /-- `node.args.kwarg is not None` -/
  hasKwarg : Bool
  fromlineno : Nat
  tolineno : Nat
  lineno : Nat
  /-- names of the `nodes.AssignName` nodes below the function
  (`nodes_of_class(nodes.AssignName)`), read for `__init__` by
  `detect_temporary_fields` -/
  assignNames : List String
  /-- `attrname`s of `nodes.Attribute` nodes whose `expr` is the name
  `self`, read for non-`__init__` methods by `detect_temporary_fields` -/
  selfAttrs : List String
  /-- whether some direct body statement is an `Expr` of a `Const` whose
  text contains `cache` (the sibling test of `detect_temporary_fields`;
  the test does not depend on the assignment target) -/
  hasCacheConst : Bool
  body : List CBodyItem
deriving Repr, DecidableEq

/-- A base-class expression: a `nodes.Name` or any other shape. -/
inductive CBase where
  | bName (s : String)
  | bOther
deriving Repr, DecidableEq

/-- A `nodes.ClassDef` as read by the code-smell rules; `methods` are the
`FunctionDef` children of the class body (also what `mymethods()`
yields for these classes). -/
structure CClass where
  name : String
  decorators : List Deco
  bases : List CBase
  methods : List CFunc
  lineno : Nat
deriving Repr, DecidableEq

/-- A top-level statement of `module.body`. -/
inductive CTop where
  | func (f : CFunc)
  | cls (c : CClass)
  | other
deriving Repr, DecidableEq

/-- One parsed file: `module.body` plus `self.file_content` (the raw
source split on newlines). -/
structure CModule where
  body : List CTop
  fileContent : List String
deriving Repr, DecidableEq

/-- The code-smell threshold bundle (`self.thresholds` entries the
embedded rules index). -/
structure CThresholds where
  LONG_METHOD_LINES : ℚ
  PRIMITIVE_OBSESSION_COUNT : ℚ
  LONG_PARAMETER_LIST : ℚ
  DATA_CLUMPS_THRESHOLD : ℚ
  TEMPORARY_FIELD_THRESHOLD : ℚ
  ALTERNATIVE_CLASSES_THRESHOLD : ℚ
  DIVERGENT_CHANGE_PREFIXES : ℚ
  DIVERGENT_CHANGE_METHODS : ℚ
deriving Repr, DecidableEq

/-- The property-decorator test of `detect_long_methods` and
`detect_feature_envy`: a `Name` decorator `property` or a `Call` decorator
whose `func` is the name `property` (an `Attribute` decorator is not
checked there). -/
def isPropertyNameOrCall (ds : List Deco) : Bool :=
  ds.any fun d => match d with
    | .dName s => s == "property"
    | .dCall s => s == "property"
    | _ => false

/-- The decorator test used by the class-level rules, which also accept
the `Attribute` shape. -/
def hasDecoNamed (target : String) (ds : List Deco) : Bool :=
  ds.any fun d => match d with
    | .dName s => s == target
    | .dCall s => s == target
    | .dAttr s => s == target
    | .dOther => false

/-- `any(base.name.endswith(sfx) for base in node.bases if isinstance(base, nodes.Name))` -/
def anyBaseEndsWith (sfx : String) (bs : List CBase) : Bool :=
  bs.any fun b => match b with
    | .bName s => strEndsWith s sfx
    | .bOther => false

/-- The line counter of `detect_long_methods`: over the inclusive line
range, count the lines that exist, are non-empty after stripping, and do
not start with a comment marker. -/
def actualLines (content : List String) (fromL toL : Nat) : Nat :=
  ((List.range (toL + 1 - fromL)).map (fun i => fromL + i)).countP fun lineNo =>
    decide (lineNo ≤ content.length) &&
      (let line := strTrim ((content[lineNo - 1]?).getD "")
       line ≠ "" && ¬ strStartsWith line "#")

/-- Loop body of `detect_long_methods` for one top-level function. -/
def detectLongMethodsFunc (content : List String) (fp : String) (th : CThresholds)
    (f : CFunc) : List Smell :=
  if isPropertyNameOrCall f.decorators then []
  else
    let n := actualLines content f.fromlineno f.tolineno
    if (n : ℚ) > th.LONG_METHOD_LINES then
      [{ name := "Long Method"
       , description := sq ++ f.name ++ sq ++ " has " ++ toString n ++ " lines in " ++ fp
           ++ " at line " ++ toString f.lineno
       , filePath := fp
       , moduleClass := some f.name
       , lineNumber := some f.lineno
       , severity := "" }]
    else []

/-- `detect_long_methods`: iterates `module.body` and handles only
`FunctionDef` statements. -/
def detectLongMethods (m : CModule) (fp : String) (th : CThresholds) : List Smell :=
  m.body.flatMap fun t => match t with
    | .func f => detectLongMethodsFunc m.fileContent fp th f
    | _ => []

/-- Count of primitive-annotated parameters in `detect_primitive_obsession`:
parameter `i` counts when it is not a leading `self` and its annotation is
one of the four primitive type names. -/
def primitiveCount (f : CFunc) : Nat :=
  (List.range f.args.length).countP fun i =>
    let nm := (f.args[i]?).getD ""
    if i == 0 && nm == "self" then false
    else match (f.annotations[i]?).getD none with
      | some t => ["int", "str", "float", "bool"].contains t
      | none => false

/-- Loop body of `detect_primitive_obsession` for one top-level function.
The ratio denominator reproduces the source test
`total_args - 1 if 'self' in node.args.args[0].name else total_args`,
a substring containment test on the first argument name. -/
def detectPrimitiveObsessionFunc (fp : String) (th : CThresholds) (f : CFunc) : List Smell :=
  let total := f.args.length
  if total ≤ 3 then []
  else
    let primitives := primitiveCount f
    let denom : ℚ := if containsSub ((f.args[0]?).getD "") "self" then qSub (total : ℚ) 1
      else (total : ℚ)
    let ratio : ℚ := qDiv (primitives : ℚ) denom
    if (primitives : ℚ) > th.PRIMITIVE_OBSESSION_COUNT ∧ ratio > mkRat 7 10 then
      [{ name := "Primitive Obsession"
       , description := sq ++ f.name ++ sq ++ " has " ++ toString primitives
           ++ " primitive parameters in " ++ fp
       , filePath := fp
       , moduleClass := some f.name
       , lineNumber := some f.lineno
       , severity := "" }]
    else []

/-- `detect_primitive_obsession` over `module.body`. -/
def detectPrimitiveObsession (m : CModule) (fp : String) (th : CThresholds) : List Smell :=
  m.body.flatMap fun t => match t with
    | .func f => detectPrimitiveObsessionFunc fp th f
    | _ => []

/-- Loop body of `detect_long_parameter_lists` for one top-level
function: constructors are skipped, a leading `self` is dropped, and
variable arguments raise the threshold by two. -/
def detectLongParameterListsFunc (fp : String) (th : CThresholds) (f : CFunc) : List Smell :=
  if f.name == "__init__" then []
  else
    let args := match f.args with
      | a :: rest => if a == "self" then rest else f.args
      | [] => []
    let thr : ℚ := if f.hasVararg || f.hasKwarg then qAdd th.LONG_PARAMETER_LIST 2
      else th.LONG_PARAMETER_LIST
    if (args.length : ℚ) > thr then
      [{ name := "Long Parameter List"
       , description := sq ++ f.name ++ sq ++ " has " ++ toString args.length
           ++ " parameters in " ++ fp
       , filePath := fp
       , moduleClass := some f.name
       , lineNumber := some f.lineno
       , severity := "" }]
    else []

/-- `detect_long_parameter_lists` over `module.body`. -/
def detectLongParameterLists (m : CModule) (fp : String) (th : CThresholds) : List Smell :=
  m.body.flatMap fun t => match t with
    | .func f => detectLongParameterListsFunc fp th f
    | _ => []

/-- `itertools.combinations`: ordered combinations of length `n`
(subsequences, enumerated with the ones containing earlier elements
first). -/
def combosLen : Nat → List String → List (List String)
  | 0, _ => [[]]
  | _ + 1, [] => []
  | n + 1, x :: xs => (combosLen n xs).map (fun c => x :: c) ++ combosLen (n + 1) xs

/-- `defaultdict(list)` update: append `v` to the bucket of `key`, keeping
first-insertion key order. -/
def groupAppend (key : List String) (v : String) :
    List (List String × List String) → List (List String × List String)
  | [] => [(key, [v])]
  | (k, vs) :: rest =>
      if k == key then (k, vs ++ [v]) :: rest else (k, vs) :: groupAppend key v rest

/-- The `parameter_groups` table of `detect_data_clumps`: for every
non-constructor, non-property top-level function with enough parameters,
every combination (size 3 up to all) of its sorted non-`self` parameter
names is mapped to the function names using it.  The property test here is
the `Name`-only decorator test of the source. -/
def dataClumpsGroups (th : CThresholds) (body : List CTop) :
    List (List String × List String) :=
  body.foldl (fun acc t => match t with
    | .func f =>
      if f.name == "__init__"
          || f.decorators.any (fun d => match d with | .dName s => s == "property" | _ => false) then
        acc
      else
        let params := f.args.filter (fun a => a ≠ "self")
        if (params.length : ℚ) < th.DATA_CLUMPS_THRESHOLD then acc
        else
          let sortedParams := sortStrings params
          let combos := (List.range (params.length + 1 - 3)).flatMap
            (fun k => combosLen (3 + k) sortedParams)
          combos.foldl (fun acc2 combo => groupAppend combo f.name acc2) acc
    | _ => acc) []

/-- `detect_data_clumps`: emit one medium finding per parameter
combination shared by more than one function. -/
def detectDataClumps (m : CModule) (fp : String) (th : CThresholds) : List Smell :=
  (dataClumpsGroups th m.body).flatMap fun kv =>
    if kv.2.length > 1 ∧ (kv.1.length : ℚ) ≥ th.DATA_CLUMPS_THRESHOLD then
      [{ name := "Data Clumps"
       , description := "Parameters " ++ joinComma kv.1 ++ " appear together in functions: "
           ++ joinComma kv.2 ++ " in " ++ fp
       , filePath := fp
       , moduleClass := some (joinComma kv.2)
       , lineNumber := none
       , severity := "medium" }]
    else []

/-- The three field sets of `detect_temporary_fields` for one class, in
class-body order: fields assigned in `__init__` (split into cached and
plain by the cache-comment test, which inspects the whole `__init__` body
and therefore classifies all its targets alike), and the `self.<attr>`
names read in every other method. -/
def tempFieldSets (c : CClass) : List String × List String × List String :=
  c.methods.foldl (fun acc meth =>
    if meth.name == "__init__" then
      if meth.hasCacheConst then (acc.1, acc.2.1, sUnion acc.2.2 meth.assignNames)
      else (sUnion acc.1 meth.assignNames, acc.2.1, acc.2.2)
    else (acc.1, sUnion acc.2.1 meth.selfAttrs, acc.2.2)) ([], [], [])

/-- The temporary-field set of a class:
`init_fields - used_fields - cached_fields - common names`. -/
def tempFieldsOf (c : CClass) : List String :=
  let s := tempFieldSets c
  sDiff (sDiff (sDiff s.1 s.2.1) s.2.2) ["logger", "config", "cache", "_cache"]

/-- Loop body of `detect_temporary_fields` for one class.  `enum` is the
iteration order CPython uses for the string set joined into the
description; it is unspecified across processes, so the embedding takes it
as a parameter applied to the canonical (insertion-ordered, deduplicated)
set representation. -/
def detectTemporaryFieldsClass (enum : List String → List String) (fp : String)
    (th : CThresholds) (c : CClass) : List Smell :=
  if hasDecoNamed "dataclass" c.decorators || anyBaseEndsWith "Exception" c.bases then []
  else
    let temp := tempFieldsOf c
    if (temp.length : ℚ) ≥ th.TEMPORARY_FIELD_THRESHOLD then
      [{ name := "Temporary Field"
       , description := "Potentially unused fields " ++ joinComma (enum temp) ++ " in class "
           ++ sq ++ c.name ++ sq ++ " at line " ++ toString c.lineno ++ " in " ++ fp
       , filePath := fp
       , moduleClass := some c.name
       , lineNumber := some c.lineno
       , severity := "low" }]
    else []

/-- `detect_temporary_fields` over `module.body`, parameterized by the
set-iteration order `enum`. -/
def detectTemporaryFieldsWith (enum : List String → List String) (m : CModule)
    (fp : String) (th : CThresholds) : List Smell :=
  m.body.flatMap fun t => match t with
    | .cls c => detectTemporaryFieldsClass enum fp th c
    | _ => []

/-- The partition key of `detect_alternative_classes`: the frozenset of
non-private, non-standard method names, represented canonically as the
sorted deduplicated list. -/
def altKey (c : CClass) : List String :=
  sortStrings (sUnion [] ((c.methods.map (fun meth => meth.name)).filter fun nm =>
    ¬ strStartsWith nm "_"
      && ¬ ["__init__", "__str__", "__repr__", "__eq__", "__hash__"].contains nm))

/-- The `class_methods` grouping of `detect_alternative_classes`. -/
def altGroups (m : CModule) : List (List String × List String) :=
  m.body.foldl (fun acc t => match t with
    | .cls c =>
      if hasDecoNamed "dataclass" c.decorators || hasDecoNamed "abstractmethod" c.decorators
          || anyBaseEndsWith "Exception" c.bases || anyBaseEndsWith "ABC" c.bases then acc
      else
        let key := altKey c
        if key.length < 2 then acc
        else groupAppend key c.name acc
    | _ => acc) []

/-- The union of the `Name`-shaped base-class names of the classes of the
module whose names occur in `classes` (the set whose non-emptiness the
source binds to `share_base_class`). -/
def altBaseNames (m : CModule) (classes : List String) : List String :=
  (m.body.filterMap (fun t => match t with
    | .cls c => if classes.contains c.name then some c else none
    | _ => none)).foldl (fun acc c =>
      c.bases.foldl (fun acc2 b => match b with
        | .bName s => sInsert s acc2
        | .bOther => acc2) acc) []

/-- `detect_alternative_classes`: a partition of size at least the
threshold is flagged exactly when `share_base_class` is false, and the
source computes `share_base_class` as the non-emptiness of the set of all
base names of the partition (not as the existence of a base shared by all
of its classes).  The description joins the frozensets in their canonical
order. -/
def detectAlternativeClasses (m : CModule) (fp : String) (th : CThresholds) : List Smell :=
  (altGroups m).flatMap fun kv =>
    if (kv.2.length : ℚ) ≥ th.ALTERNATIVE_CLASSES_THRESHOLD then
      let shareBaseClass := (altBaseNames m kv.2).length > 0
      if ¬ shareBaseClass then
        [{ name := "Alternative Classes with Different Interfaces"
         , description := "Classes " ++ joinComma kv.2 ++ " share similar methods "
             ++ joinComma kv.1 ++ " in " ++ fp
         , filePath := fp
         , moduleClass := some (joinComma kv.2)
         , lineNumber := none
         , severity := "medium" }]
      else []
    else []

/-- `method.name.split('_')[0]` -/
def methodPref (nm : String) : String :=
  ⟨nm.data.takeWhile (fun c => c != '_')⟩

/-- Loop body of `detect_divergent_change` for one class: collect the
method-name prefix of every non-magic, non-property, non-private method,
drop the common CRUD prefixes, and compare the retained list and its
underlying set to the two thresholds.  `enum` is again the set-iteration
order used in the description. -/
def detectDivergentChangeClass (enum : List String → List String) (fp : String)
    (th : CThresholds) (c : CClass) : List Smell :=
  if hasDecoNamed "dataclass" c.decorators || anyBaseEndsWith "Exception" c.bases
      || strEndsWith c.name "Utils" || strEndsWith c.name "Helper" || strEndsWith c.name "Mixin" then []
  else
    let prefList := c.methods.foldl (fun acc meth =>
      if strStartsWith meth.name "__" || hasDecoNamed "property" meth.decorators
          || strStartsWith meth.name "_" then acc
      else
        let p := methodPref meth.name
        if ["get", "set", "is", "has", "validate", "create", "update", "delete"].contains p then
          acc
        else acc ++ [p]) []
    let uniq := sUnion [] prefList
    if (uniq.length : ℚ) > th.DIVERGENT_CHANGE_PREFIXES
        ∧ (prefList.length : ℚ) > th.DIVERGENT_CHANGE_METHODS then
      [{ name := "Potential Divergent Change"
       , description := "Class " ++ sq ++ c.name ++ sq ++ " has " ++ toString uniq.length
           ++ " different method prefixes: " ++ joinComma (enum uniq) ++ " in " ++ fp
       , filePath := fp
       , moduleClass := some c.name
       , lineNumber := some c.lineno
       , severity := "medium" }]
    else []

/-- `detect_divergent_change` over `module.body`. -/
def detectDivergentChangeWith (enum : List String → List String) (m : CModule)
    (fp : String) (th : CThresholds) : List Smell :=
  m.body.flatMap fun t => match t with
    | .cls c => detectDivergentChangeClass enum fp th c
    | _ => []

/-!
## Error flow of `CodeSmellDetector.detect_smells`

`detect_smells` iterates a fixed list of rules over one file.  A rule
invocation either appends its findings to `self.code_smells` or raises;
the embedding abstracts one invocation as a `RuleOutcome`.  On a raise,
the handler at the rule boundary logs and re-raises a `CodeAnalysisError`
carrying the file path and the rule name; that error then reaches the
`except Exception` handler at the end of `detect_smells`, which wraps it
once more into a `CodeAnalysisError` carrying only the file path, and the
remaining rules of the list are never invoked for that file.
-/

/-- `CodeAnalysisError` (exceptions.py). -/
structure CAErr where
  message : String
  filePath : Option String
  lineNumber : Option Nat
  functionName : Option String
deriving Repr, DecidableEq

/-- Python `str` of an optional string (`None` renders as `None`). -/
def pyStrOpt : Option String → String
  | some s => s
  | none => "None"

/-- Python `str` of an optional number. -/
def pyStrOptNat : Option Nat → String
  | some n => toString n
  | none => "None"

/-- `str(e)` for a `CodeAnalysisError`: the message built by its
constructor. -/
def caeStr (e : CAErr) : String :=
  e.message ++ "\nFile: " ++ pyStrOpt e.filePath ++ "\nLine: " ++ pyStrOptNat e.lineNumber
    ++ "\nFunction: " ++ pyStrOpt e.functionName

/-- Outcome of invoking one detection rule on one file. -/
inductive RuleOutcome where
  | ok (smells : List Smell)
  | raises (msg : String)
deriving Repr, DecidableEq

/-- The `for detect_method, method_name in detection_methods` loop:
successful rules contribute their findings; the first raising rule
produces the rule-boundary `CodeAnalysisError` (file path and rule name)
and ends the loop. -/
def runDetectionLoop (fp : String) : List (String × RuleOutcome) → List Smell × Option CAErr
  | [] => ([], none)
  | (_, .ok sm) :: rest =>
    let r := runDetectionLoop fp rest
    (sm ++ r.1, r.2)
  | (nm, .raises msg) :: _ =>
    ([], some { message := "Error in " ++ nm ++ ": " ++ msg
              , filePath := some fp
              , lineNumber := none
              , functionName := some nm })

/-- `detect_smells` on one file: the loop, followed by the outer
`except Exception` handler that re-wraps any raised `CodeAnalysisError`
into one whose `function_name` is `None`.  The first component is what the
call appends to `self.code_smells`; the second is the error it raises, if
any. -/
def codeDetectSmells (fp : String) (rules : List (String × RuleOutcome)) :
    List Smell × Option CAErr :=
  let r := runDetectionLoop fp rules
  match r.2 with
  | none => (r.1, none)
  | some e =>
    (r.1, some { message := "Unexpected error: " ++ caeStr e
               , filePath := some fp
               , lineNumber := none
               , functionName := none })

/-- The per-file loop of `main.analyze_code_smells`: `detect_smells` is
called on each file, a raised `CodeAnalysisError` is caught and logged,
and the walk continues with the next file; the detector keeps
accumulating findings across files. -/
def analyzeCodeSmellsFiles (files : List (String × List (String × RuleOutcome))) : List Smell :=
  files.foldl (fun acc fj => acc ++ (codeDetectSmells fj.1 fj.2).1) []

/-!
## Structural-smell detector (pyexamine `structural_smell_detector.py`)

The embedding takes the analysis state built by `analyze_directory`
(`class_info`, `module_info`, `file_paths`, the dependency graph) as the
input project, keeping for each method exactly the abstract-syntax counts
the rules read: the number of `If`/loop/`Try` nodes and except handlers
found by `ast.walk`, the elif and boolean-operator sums of
`calculate_cyclomatic_complexity`, the `self.<attr>` accesses, and the
`_analyze_branches` summary.
-/

/-- A method record of `class_info[...]["methods"]`. -/
structure SMethod where
  name : String
  /-- `decorator_list` (the rules only test `ast.Name` entries) -/
  decoratorList : List Deco
  args : List String
  lineno : Nat
  /-- `attrname`s of `ast.Attribute` nodes whose value is the name `self` -/
  selfAttrs : List String
  /-- number of `ast.If` nodes in `ast.walk` -/
  ifNodeCount : Nat
  /-- sum over `ast.If` nodes of their direct `If` children in `orelse` -/
  elifChildSum : Nat
  /-- number of `ast.For` and `ast.While` nodes -/
  loopNodeCount : Nat
  /-- number of `ast.Try` nodes -/
  tryNodeCount : Nat
  /-- number of `ast.ExceptHandler` nodes -/
  exceptHandlerCount : Nat
  /-- sum of `len(values) - 1` over `ast.BoolOp` nodes -/
  boolopExtraSum : Nat
  /-- branch count computed by `_analyze_branches` -/
  branchCount : Nat
  /-- maximum nesting computed by `_analyze_branches` -/
  maxNesting : Nat
deriving Repr, DecidableEq

/-- One `class_info` entry. -/
structure SClass where
  methods : List SMethod
  fields : List String
  /-- `method_calls`: method name to the set of called member names -/
  methodCalls : List (String × List String)
  baseClasses : List String
  loc : Nat
deriving Repr, DecidableEq

/-- One `module_info` entry; `lines` is the file content split into
lines (the detector re-reads the file for the LOC and file-length rules;
the model assumes the file is readable and unchanged). -/
structure SModule where
  lines : List String
deriving Repr, DecidableEq

/-- The analysis state of `StructuralSmellDetector` after
`analyze_directory`. -/
structure SProject where
  classInfo : List (String × SClass)
  moduleInfo : List (String × SModule)
  filePaths : List (String × String)
  /-- edges of `dependency_graph` (deduplicated, in insertion order) -/
  depEdges : List (String × String)
  projectRoot : String
deriving Repr, DecidableEq

/-- The structural threshold bundle.  Keys the source reads with
`self.thresholds[...]` are plain values (the model considers runs where
they are configured); keys read with `.get(..., default)` are optional. -/
structure SThresholds where
  NOM_THRESHOLD : Option ℚ
  LCOM_THRESHOLD : ℚ
  RFC_THRESHOLD : ℚ
  NOCC_THRESHOLD : ℚ
  DIT_THRESHOLD : ℚ
  LOC_THRESHOLD : ℚ
  NOC_THRESHOLD : ℚ
  CYCLOMATIC_COMPLEXITY_THRESHOLD : Option ℚ
  MAX_FANOUT : Option ℚ
  MAX_FANIN : Option ℚ
  MAX_FILE_LENGTH : Option ℚ
  MAX_BRANCHES : Option ℚ
  MPC_THRESHOLD : ℚ
deriving Repr, DecidableEq

/-- `self.file_paths.get(key, "Unknown")` -/
def fpGet (fps : List (String × String)) (k : String) : String :=
  (fps.lookup k).getD "Unknown"

/-- `name.rsplit('.', 1)[0]`: the module part of a qualified class name. -/
def rsplitModule (s : String) : String :=
  let r := s.data.reverse
  if r.contains '.' then ⟨((r.dropWhile (fun c => c != '.')).tail).reverse⟩ else s

/-- `name.split('.')[-1]` -/
def lastComponent (s : String) : String :=
  ⟨(s.data.reverse.takeWhile (fun c => c != '.')).reverse⟩

/-- `isinstance(d, ast.Name) and d.id == 'property'` over a decorator
list. -/
def isPropertyAst (ds : List Deco) : Bool :=
  ds.any fun d => match d with
    | .dName s => s == "property"
    | _ => false

/-- Magic-method test `name.startswith('__') and name.endswith('__')`. -/
def isMagicName (nm : String) : Bool :=
  strStartsWith nm "__" && strEndsWith nm "__"

/-- `calculate_cyclomatic_complexity`: one plus the control-flow counts
collected over `ast.walk`. -/
def calculateCyclomaticComplexity (m : SMethod) : Nat :=
  1 + m.ifNodeCount + m.elifChildSum + m.loopNodeCount + m.exceptHandlerCount + m.boolopExtraSum

/-- The simple-accessor test of `detect_wmpc` and `detect_rfc`: no
`If`/`While`/`For`/`Try` node anywhere in the method. -/
def isSimpleMethod (m : SMethod) : Bool :=
  m.ifNodeCount == 0 && m.loopNodeCount == 0 && m.tryNodeCount == 0

/-- The `regular_methods` filter shared by `detect_nom` and
`detect_lcom`: not a magic method and not a `Name`-decorated property. -/
def regularMethods (c : SClass) : List SMethod :=
  c.methods.filter fun m => ¬ isMagicName m.name && ¬ isPropertyAst m.decoratorList

/-- The effective NOM threshold: `thresholds.get('NOM_THRESHOLD')`
followed by `if not threshold: threshold = 10` (both a missing key and a
falsy zero fall back to ten). -/
def nomEffectiveThreshold (th : SThresholds) : ℚ :=
  match th.NOM_THRESHOLD with
  | none => 10
  | some v => if v == 0 then 10 else v

/-- Loop body of `detect_nom` for one class. -/
def detectNomClass (fps : List (String × String)) (th : SThresholds)
    (entry : String × SClass) : List Smell :=
  let t := nomEffectiveThreshold th
  let nom := (regularMethods entry.2).length
  if (nom : ℚ) > t then
    [{ name := "High Number of Methods (NOM)"
     , description := "Class " ++ sq ++ entry.1 ++ sq ++ " has " ++ toString nom
         ++ " methods (excluding special methods and properties)"
     , filePath := fpGet fps (rsplitModule entry.1)
     , moduleClass := some entry.1
     , lineNumber := none
     , severity := if (nom : ℚ) > qMul t (mkRat 3 2) then "High" else "Medium" }]
  else []

/-- `detect_nom` over the class table. -/
def detectNom (p : SProject) (th : SThresholds) : List Smell :=
  p.classInfo.flatMap (detectNomClass p.filePaths th)

/-- Function iteration used for the field-usage fixpoint. -/
def iterate {α : Type} (f : α → α) : Nat → α → α
  | 0, a => a
  | n + 1, a => iterate f n (f a)

/-- First pass of `_build_field_usage_map`: the directly accessed
`self.<attr>` names of each method (as a set). -/
def directFieldUsage (ms : List SMethod) : List (String × List String) :=
  ms.map fun m => (m.name, sUnion [] m.selfAttrs)

/-- One propagation pass of `_build_field_usage_map`: each method absorbs
the fields of the methods it calls that are present in the map. -/
def lcomPropagateStep (methodCalls : List (String × List String))
    (usage : List (String × List String)) : List (String × List String) :=
  usage.map fun kv =>
    ((methodCalls.lookup kv.1).getD []).foldl (fun acc cm =>
      match usage.lookup cm with
      | some fs => (cm, sUnion acc.2 fs)
      | none => acc) (kv.1, kv.2)

/-- `_build_field_usage_map`: the `while changed` loop reaches its
fixpoint within `|methods| * (|fields| + 1) + 1` passes, because every
non-final pass adds at least one of the finitely many accessed field names
to some method set. -/
def lcomUsageMap (methodCalls : List (String × List String)) (ms : List SMethod) :
    List (String × List String) :=
  let allAttrs := ms.foldl (fun acc m => sUnion acc m.selfAttrs) []
  iterate (lcomPropagateStep methodCalls) (ms.length * (allAttrs.length + 1) + 1)
    (directFieldUsage ms)

/-- The nested pair loop of `detect_lcom`: count non-cohesive and cohesive
method pairs, skipping pairs of two private methods. -/
def lcomPairCounts (usage : List (String × List String)) : List SMethod → Nat × Nat
  | [] => (0, 0)
  | m1 :: rest =>
    let inner := rest.foldl (fun (acc : Nat × Nat) m2 =>
      if strStartsWith m1.name "_" && strStartsWith m2.name "_" then acc
      else
        let f1 := (usage.lookup m1.name).getD []
        let f2 := (usage.lookup m2.name).getD []
        if (f1.filter (fun x => f2.contains x)).isEmpty then (acc.1 + 1, acc.2)
        else (acc.1, acc.2 + 1)) (0, 0)
    let r := lcomPairCounts usage rest
    (inner.1 + r.1, inner.2 + r.2)

/-- Loop body of `detect_lcom` for one class; the truncated subtraction
models `max(0, non_cohesive - cohesive)`. -/
def detectLcomClass (fps : List (String × String)) (th : SThresholds)
    (entry : String × SClass) : List Smell :=
  let ms := regularMethods entry.2
  if ms.length < 2 then []
  else
    let usage := lcomUsageMap entry.2.methodCalls ms
    let pc := lcomPairCounts usage ms
    if pc.1 == 0 && pc.2 == 0 then []
    else
      let lcom : Nat := pc.1 - pc.2
      if (lcom : ℚ) > th.LCOM_THRESHOLD then
        [{ name := "High Lack of Cohesion of Methods (LCOM)"
         , description := "Class " ++ sq ++ entry.1 ++ sq ++ " has LCOM of " ++ toString lcom
             ++ " (non-cohesive: " ++ toString pc.1 ++ ", cohesive: " ++ toString pc.2 ++ ")"
         , filePath := fpGet fps (rsplitModule entry.1)
         , moduleClass := some entry.1
         , lineNumber := none
         , severity := if (lcom : ℚ) > qMul th.LCOM_THRESHOLD (mkRat 3 2) then "High" else "Medium" }]
      else []

/-- `detect_lcom` over the class table. -/
def detectLcom (p : SProject) (th : SThresholds) : List Smell :=
  p.classInfo.flatMap (detectLcomClass p.filePaths th)

/-- The standard-library call prefixes of `detect_rfc`. -/
def stdlibCallPrefixes : List String :=
  ["os.", "sys.", "datetime.", "collections.", "json."]

/-- The `significant_methods` filter of `detect_rfc`: not magic, and
either not a simple accessor or public. -/
def rfcSignificantMethods (c : SClass) : List SMethod :=
  c.methods.filter fun m =>
    ¬ isMagicName m.name && (¬ isSimpleMethod m || ¬ strStartsWith m.name "_")

/-- The `external_calls` set of `detect_rfc`: called names over all
methods that are neither standard-library prefixed nor names of the
class's own methods. -/
def rfcExternalCalls (c : SClass) : List String :=
  c.methodCalls.foldl (fun acc kv =>
    kv.2.foldl (fun acc2 call =>
      if stdlibCallPrefixes.any (fun p => strStartsWith call p) then acc2
      else if c.methods.any (fun m => m.name == call) then acc2
      else sInsert call acc2) acc) []

/-- Loop body of `detect_rfc` for one class. -/
def detectRfcClass (fps : List (String × String)) (th : SThresholds)
    (entry : String × SClass) : List Smell :=
  let sig := (rfcSignificantMethods entry.2).length
  let ext := (rfcExternalCalls entry.2).length
  let rfc := sig + ext
  if (rfc : ℚ) > th.RFC_THRESHOLD then
    [{ name := "High Response for a Class (RFC)"
     , description := "Class " ++ sq ++ entry.1 ++ sq ++ " has RFC of " ++ toString rfc
         ++ " (methods: " ++ toString sig ++ ", external calls: " ++ toString ext ++ ")"
     , filePath := fpGet fps (rsplitModule entry.1)
     , moduleClass := some entry.1
     , lineNumber := none
     , severity := if (rfc : ℚ) > qMul th.RFC_THRESHOLD (mkRat 3 2) then "High" else "Medium" }]
  else []

/-- `detect_rfc` over the class table. -/
def detectRfc (p : SProject) (th : SThresholds) : List Smell :=
  p.classInfo.flatMap (detectRfcClass p.filePaths th)

/-- `defaultdict(list)` grouping with general key and value types. -/
def agroupAppend {κ ν : Type} [BEq κ] (key : κ) (v : ν) :
    List (κ × List ν) → List (κ × List ν)
  | [] => [(key, [v])]
  | (k, vs) :: rest =>
      if k == key then (k, vs ++ [v]) :: rest else (k, vs) :: agroupAppend key v rest

/-- The per-class weight of `detect_nocc`:
`(methods + fields + sum of complexities) / 3`. -/
def noccClassWeight (c : SClass) : ℚ :=
  qDiv ((c.methods.length + c.fields.length
    + (c.methods.map calculateCyclomaticComplexity).sum : ℕ) : ℚ) 3

/-- The `module_class_info` grouping of `detect_nocc`, skipping test and
exception classes. -/
def noccGroups (p : SProject) : List (String × List (String × ℚ)) :=
  p.classInfo.foldl (fun acc entry =>
    if containsSub (strLower entry.1) "test" then acc
    else if entry.2.baseClasses.any (fun b => strEndsWith b "Exception") then acc
    else agroupAppend (rsplitModule entry.1) (entry.1, noccClassWeight entry.2) acc) []

/-- Loop body of `detect_nocc` for one module group: the threshold is
scaled by `1.5` for simple classes and `0.7` for complex ones. -/
def detectNoccModule (fps : List (String × String)) (th : SThresholds)
    (entry : String × List (String × ℚ)) : List Smell :=
  let count := entry.2.length
  let avgWeight : ℚ := if count > 0 then qDiv (qSum (entry.2.map Prod.snd)) (count : ℚ) else 0
  let adjusted :=
    if avgWeight < 5 then qMul th.NOCC_THRESHOLD (mkRat 3 2)
    else if avgWeight > 15 then qMul th.NOCC_THRESHOLD (mkRat 7 10)
    else th.NOCC_THRESHOLD
  if (count : ℚ) > adjusted then
    [{ name := "High Number of Classes (NOCC)"
     , description := "Module " ++ sq ++ entry.1 ++ sq ++ " has " ++ toString count
         ++ " significant classes (avg complexity: " ++ fmt1 avgWeight ++ ")"
     , filePath := fpGet fps entry.1
     , moduleClass := some entry.1
     , lineNumber := none
     , severity := if (count : ℚ) > qMul adjusted (mkRat 3 2) then "High" else "Medium" }]
  else []

/-- `detect_nocc` over the module groups. -/
def detectNocc (p : SProject) (th : SThresholds) : List Smell :=
  (noccGroups p).flatMap (detectNoccModule p.filePaths th)

/-- A directed graph with insertion-ordered nodes and deduplicated
edges, the shape `networkx.DiGraph` exposes to these rules. -/
structure DiGraph where
  nodes : List String
  edges : List (String × String)
deriving Repr, DecidableEq

/-- Deduplicating edge insertion. -/
def pInsert (e : String × String) (l : List (String × String)) : List (String × String) :=
  if l.contains e then l else l ++ [e]

/-- Successors of a node, in edge-insertion order. -/
def successors (g : DiGraph) (n : String) : List String :=
  (g.edges.filter (fun e => e.1 == n)).map Prod.snd

/-- In-degree of a node. -/
def inDegree (g : DiGraph) (n : String) : Nat :=
  (g.edges.filter (fun e => e.2 == n)).length

/-- The framework base classes excluded by `detect_dit`. -/
def frameworkBases : List String :=
  ["object", "Exception", "dict", "list", "set", "tuple", "str", "int", "float"]

/-- The inheritance graph built by `detect_dit` before rooting: one node
per class, and an edge `base -> class` for every base whose last name
component is neither a framework base nor a Mixin/Interface/ABC/Abstract
name. -/
def ditGraphRaw (p : SProject) : DiGraph :=
  p.classInfo.foldl (fun acc entry =>
    let acc1 : DiGraph := ⟨sInsert entry.1 acc.nodes, acc.edges⟩
    entry.2.baseClasses.foldl (fun (acc2 : DiGraph) base =>
      let baseName := lastComponent base
      if frameworkBases.contains baseName then acc2
      else if containsSub baseName "Mixin" || containsSub baseName "Interface" then acc2
      else if containsSub baseName "ABC" || containsSub baseName "Abstract" then acc2
      else ⟨sInsert entry.1 (sInsert base acc2.nodes), pInsert (base, entry.1) acc2.edges⟩)
      acc1) ⟨[], []⟩

/-- The rooting step of `detect_dit`: when the graph is non-empty and has
no `object` node, add one and connect it to every node without incoming
edges. -/
def ditGraphRooted (p : SProject) : DiGraph :=
  let g := ditGraphRaw p
  if ¬ g.nodes.contains "object" ∧ ¬ g.nodes.isEmpty then
    ⟨g.nodes ++ ["object"]
    , g.edges ++ (g.nodes.filter (fun n => inDegree g n == 0 && n ≠ "object")).map
        (fun n => ("object", n))⟩
  else g

/-- Frontier expansion for breadth-first search. -/
def expandFrontier (g : DiGraph) (visited : List String)
    (frontier : List (String × List String)) : List (String × List String) × List String :=
  frontier.foldl (fun acc entry =>
    (successors g entry.1).foldl (fun acc2 nxt =>
      if acc2.2.contains nxt then acc2
      else (acc2.1 ++ [(nxt, nxt :: entry.2)], acc2.2 ++ [nxt])) acc) ([], visited)

/-- Level-synchronous breadth-first search; frontier entries carry the
reversed path from the source. -/
def bfsSearch (g : DiGraph) (dst : String) :
    Nat → List (String × List String) → List String → Option (List String)
  | 0, _, _ => none
  | fuel + 1, frontier, visited =>
    match frontier.find? (fun e => e.1 == dst) with
    | some e => some e.2.reverse
    | none =>
      if frontier.isEmpty then none
      else
        let ex := expandFrontier g visited frontier
        bfsSearch g dst fuel ex.1 ex.2

/-- `networkx.shortest_path`: a breadth-first shortest path, or `none`
when no path exists (the `NetworkXNoPath` case).  A path needs at most
`|nodes|` levels. -/
def shortestPath (g : DiGraph) (src dst : String) : Option (List String) :=
  bfsSearch g dst (g.nodes.length + 1) [(src, [src])] [src]

/-- Loop body of `detect_dit` for one node of the rooted inheritance
graph: a deep-inheritance finding when the distance from `object` exceeds
the threshold, an isolated-class finding when no path exists and the class
name contains no framework-base name as a substring. -/
def detectDitNode (p : SProject) (th : SThresholds) (g : DiGraph) (node : String) : List Smell :=
  if node == "object" then []
  else
    match shortestPath g "object" node with
    | some path =>
      let dit := path.length - 1
      if (dit : ℚ) > th.DIT_THRESHOLD then
        [{ name := "Deep Inheritance Tree (DIT)"
         , description := "Class " ++ sq ++ node ++ sq ++ " has DIT of " ++ toString dit
             ++ "\nInheritance path: " ++ String.intercalate "->" path
         , filePath := fpGet p.filePaths (rsplitModule node)
         , moduleClass := some node
         , lineNumber := none
         , severity := if (dit : ℚ) > qMul th.DIT_THRESHOLD (mkRat 3 2) then "High" else "Medium" }]
      else []
    | none =>
      if ¬ frameworkBases.any (fun b => containsSub node b) then
        [{ name := "Isolated Class in Inheritance Tree"
         , description := "Class " ++ sq ++ node ++ sq
             ++ " is isolated from the main inheritance hierarchy"
         , filePath := fpGet p.filePaths (rsplitModule node)
         , moduleClass := some node
         , lineNumber := none
         , severity := "Low" }]
      else []

/-- `detect_dit` over the rooted inheritance graph. -/
def detectDit (p : SProject) (th : SThresholds) : List Smell :=
  let g := ditGraphRooted p
  g.nodes.flatMap (detectDitNode p th g)

/-- The line classification of `detect_loc`:
code, doc, import and blank counts, with a docstring toggle. -/
structure LocCounts where
  codeLines : Nat
  docLines : Nat
  importLines : Nat
  blankLines : Nat
deriving Repr, DecidableEq

/-- The classification loop of `detect_loc` over the raw lines. -/
def locClassify (lines : List String) : LocCounts :=
  (lines.foldl (fun (acc : LocCounts × Bool) line =>
    let s := strTrim line
    if s == "" then ({ acc.1 with blankLines := acc.1.blankLines + 1 }, acc.2)
    else if strStartsWith s "\"\"\"" || strStartsWith s "\x27\x27\x27" then
      ({ acc.1 with docLines := acc.1.docLines + 1 }, ¬ acc.2)
    else if acc.2 then ({ acc.1 with docLines := acc.1.docLines + 1 }, acc.2)
    else if strStartsWith s "import " || strStartsWith s "from " then
      ({ acc.1 with importLines := acc.1.importLines + 1 }, acc.2)
    else if strStartsWith s "#" then acc
    else ({ acc.1 with codeLines := acc.1.codeLines + 1 }, acc.2)) (⟨0, 0, 0, 0⟩, false)).1

/-- Loop body of `detect_loc` for one module: the threshold grows by
`1.5` for test modules and by `1.3` for documentation-heavy ones. -/
def detectLocModule (fps : List (String × String)) (th : SThresholds)
    (entry : String × SModule) : List Smell :=
  let lines := entry.2.lines
  let c := locClassify lines
  let effective := c.codeLines
  let ratio : ℚ :=
    if qSub (lines.length : ℚ) (c.blankLines : ℚ) > 0 then
      qDiv (effective : ℚ) (qSub (lines.length : ℚ) (c.blankLines : ℚ))
    else 1
  let adj1 := if containsSub (strLower entry.1) "test" then qMul th.LOC_THRESHOLD (mkRat 3 2)
    else th.LOC_THRESHOLD
  let adjusted := if ratio < mkRat 1 2 then qMul adj1 (mkRat 13 10) else adj1
  if (effective : ℚ) > adjusted then
    [{ name := "High Lines of Code (LOC)"
     , description := "Module " ++ sq ++ entry.1 ++ sq ++ " has " ++ toString effective
         ++ " effective code lines\n(Total: " ++ toString lines.length
         ++ ", Code: " ++ toString c.codeLines ++ ", Doc: " ++ toString c.docLines
         ++ ", Import: " ++ toString c.importLines ++ ", Blank: " ++ toString c.blankLines ++ ")"
     , filePath := fpGet fps entry.1
     , moduleClass := some entry.1
     , lineNumber := none
     , severity := if (effective : ℚ) > qMul adjusted (mkRat 3 2) then "High" else "Medium" }]
  else []

/-- `detect_loc` over the module table. -/
def detectLoc (p : SProject) (th : SThresholds) : List Smell :=
  p.moduleInfo.flatMap (detectLocModule p.filePaths th)

/-- The class categories of `detect_noc`:
(regular, test, utility, abstract) counts. -/
def nocCategories (p : SProject) : Nat × Nat × Nat × Nat :=
  p.classInfo.foldl (fun (acc : Nat × Nat × Nat × Nat) entry =>
    let lower := strLower entry.1
    if containsSub lower "generated" then acc
    else if ["test", "mock", "stub", "fake"].any (fun pat => containsSub lower pat) then
      (acc.1, acc.2.1 + 1, acc.2.2.1, acc.2.2.2)
    else if ["util", "helper", "common", "base"].any (fun pat => containsSub lower pat) then
      (acc.1, acc.2.1, acc.2.2.1 + 1, acc.2.2.2)
    else if ["Abstract", "Base", "Interface"].any (fun pat => containsSub entry.1 pat) then
      (acc.1, acc.2.1, acc.2.2.1, acc.2.2.2 + 1)
    else (acc.1 + 1, acc.2.1, acc.2.2.1, acc.2.2.2)) (0, 0, 0, 0)

/-- `_adjust_noc_threshold`: the production-code filter of the source
iterates the keys of each per-module dictionary, which are exactly
`['loc']`, so it never excludes anything and the total is the sum of all
module line counts. -/
def adjustNocThreshold (p : SProject) (th : SThresholds) : ℚ :=
  let totalLoc : ℕ := (p.moduleInfo.map (fun e => e.2.lines.length)).sum
  if (totalLoc : ℚ) > 10000 then qMul th.NOC_THRESHOLD (mkRat 3 2)
  else if (totalLoc : ℚ) > 5000 then qMul th.NOC_THRESHOLD (mkRat 6 5)
  else th.NOC_THRESHOLD

/-- `detect_noc`: one project-global finding when the weighted class
count exceeds the adjusted threshold. -/
def detectNoc (p : SProject) (th : SThresholds) : List Smell :=
  let cats := nocCategories p
  let weightedNoc : ℚ :=
    qAdd (qAdd (cats.1 : ℚ) (qMul (cats.2.2.2 : ℚ) (mkRat 1 2))) (qMul (cats.2.2.1 : ℚ) (mkRat 3 10))
  let adjusted := adjustNocThreshold p th
  if weightedNoc > adjusted then
    [{ name := "High Number of Classes (NOC)"
     , description := "Project has " ++ fmt1 weightedNoc ++ " weighted classes:\n- Regular classes: "
         ++ toString cats.1 ++ "\n- Abstract/Interface classes: " ++ toString cats.2.2.2
         ++ "\n- Utility classes: " ++ toString cats.2.2.1 ++ "\n- Test classes: "
         ++ toString cats.2.1 ++ " (not counted in weighted total)\nAdjusted threshold: "
         ++ fmt1 adjusted
     , filePath := p.projectRoot
     , moduleClass := some "Project"
     , lineNumber := none
     , severity := if weightedNoc > qMul adjusted (mkRat 3 2) then "High" else "Medium" }]
  else []

/-- Loop body of `detect_cyclomatic_complexity` for one class. -/
def detectCycloClass (fps : List (String × String)) (th : SThresholds)
    (entry : String × SClass) : List Smell :=
  entry.2.methods.flatMap fun m =>
    if isMagicName m.name then []
    else
      let cx := calculateCyclomaticComplexity m
      let t := th.CYCLOMATIC_COMPLEXITY_THRESHOLD.getD 10
      if (cx : ℚ) > t then
        [{ name := "High Cyclomatic Complexity"
         , description := "Method " ++ sq ++ m.name ++ sq ++ " has cyclomatic complexity of "
             ++ toString cx
         , filePath := fpGet fps (rsplitModule entry.1)
         , moduleClass := some entry.1
         , lineNumber := some m.lineno
         , severity := if (cx : ℚ) > qMul t (mkRat 3 2) then "High" else "Medium" }]
      else []

/-- `detect_cyclomatic_complexity` over the class table. -/
def detectCyclomaticComplexity (p : SProject) (th : SThresholds) : List Smell :=
  p.classInfo.flatMap (detectCycloClass p.filePaths th)

/-- The dependency graph of the structural detector: every analyzed
module is a node, and every import adds a (deduplicated) edge and its
endpoints. -/
def depGraph (p : SProject) : DiGraph :=
  p.depEdges.foldl (fun (acc : DiGraph) e =>
    ⟨sInsert e.2 (sInsert e.1 acc.nodes), pInsert e acc.edges⟩)
    ⟨sUnion [] (p.moduleInfo.map Prod.fst), []⟩

/-- The standard-library module names excluded by `detect_fanout`. -/
def stdlibGraphNames : List String :=
  ["os", "sys", "datetime", "collections", "json", "logging"]

/-- Loop body of `detect_fanout` for one graph node. -/
def detectFanoutNode (fps : List (String × String)) (th : SThresholds) (g : DiGraph)
    (node : String) : List Smell :=
  if containsSub (strLower node) "test" then []
  else
    let deps := (successors g node).countP
      (fun s => ¬ stdlibGraphNames.any (fun lib => strStartsWith s lib))
    let t := th.MAX_FANOUT.getD 15
    if (deps : ℚ) > t then
      [{ name := "High Fan-out"
       , description := "Module " ++ sq ++ node ++ sq ++ " has " ++ toString deps
           ++ " significant outgoing dependencies"
       , filePath := fpGet fps node
       , moduleClass := some node
       , lineNumber := none
       , severity := if (deps : ℚ) > qMul t (mkRat 3 2) then "High" else "Medium" }]
    else []

/-- `detect_fanout` over the dependency graph. -/
def detectFanout (p : SProject) (th : SThresholds) : List Smell :=
  let g := depGraph p
  g.nodes.flatMap (detectFanoutNode p.filePaths th g)

/-- Loop body of `detect_fanin` for one graph node. -/
def detectFaninNode (fps : List (String × String)) (th : SThresholds) (g : DiGraph)
    (node : String) : List Smell :=
  if ["util", "base", "common", "interface"].any (fun pat => containsSub (strLower node) pat) then []
  else
    let fanin := inDegree g node
    let t := th.MAX_FANIN.getD 15
    if (fanin : ℚ) > t then
      [{ name := "High Fan-in"
       , description := "Module " ++ sq ++ node ++ sq ++ " has " ++ toString fanin
           ++ " incoming dependencies"
       , filePath := fpGet fps node
       , moduleClass := some node
       , lineNumber := none
       , severity := if (fanin : ℚ) > qMul t (mkRat 3 2) then "High" else "Medium" }]
    else []

/-- `detect_fanin` over the dependency graph. -/
def detectFanin (p : SProject) (th : SThresholds) : List Smell :=
  let g := depGraph p
  g.nodes.flatMap (detectFaninNode p.filePaths th g)

/-- The meaningful-line counter of `detect_file_length`: blank and
comment lines are skipped, docstring delimiters toggle a flag, and lines
inside a docstring do not count. -/
def meaningfulLines (lines : List String) : Nat :=
  (lines.foldl (fun (acc : Nat × Bool) line =>
    let s := strTrim line
    if s == "" || strStartsWith s "#" then acc
    else if strStartsWith s "\"\"\"" || strStartsWith s "\x27\x27\x27" then (acc.1, ¬ acc.2)
    else if ¬ acc.2 then (acc.1 + 1, acc.2)
    else acc) (0, false)).1

/-- Loop body of `detect_file_length` for one module. -/
def detectFileLengthModule (fps : List (String × String)) (th : SThresholds)
    (entry : String × SModule) : List Smell :=
  let m := meaningfulLines entry.2.lines
  let t := th.MAX_FILE_LENGTH.getD 250
  if (m : ℚ) > t then
    [{ name := "Long File"
     , description := "File " ++ sq ++ entry.1 ++ sq ++ " has " ++ toString m
         ++ " meaningful lines of code"
     , filePath := fpGet fps entry.1
     , moduleClass := some entry.1
     , lineNumber := none
     , severity := if (m : ℚ) > qMul t (mkRat 3 2) then "High" else "Medium" }]
  else []

/-- `detect_file_length` over the module table. -/
def detectFileLength (p : SProject) (th : SThresholds) : List Smell :=
  p.moduleInfo.flatMap (detectFileLengthModule p.filePaths th)

/-- Loop body of `detect_branches` for one class: property methods and
accessor-prefixed names are skipped; a finding needs either too many
branches or nesting deeper than three, and the severity looks only at the
branch count. -/
def detectBranchesClass (fps : List (String × String)) (th : SThresholds)
    (entry : String × SClass) : List Smell :=
  entry.2.methods.flatMap fun m =>
    if isPropertyAst m.decoratorList
        || strStartsWith m.name "get_" || strStartsWith m.name "set_" || strStartsWith m.name "is_" then []
    else
      let t := th.MAX_BRANCHES.getD 10
      if (m.branchCount : ℚ) > t || m.maxNesting > 3 then
        [{ name := "Too Many Branches"
         , description := "Method " ++ sq ++ m.name ++ sq ++ " has " ++ toString m.branchCount
             ++ " branches with max nesting of " ++ toString m.maxNesting
         , filePath := fpGet fps (rsplitModule entry.1)
         , moduleClass := some entry.1
         , lineNumber := some m.lineno
         , severity := if (m.branchCount : ℚ) > qMul t (mkRat 3 2) then "High" else "Medium" }]
      else []

/-- `detect_branches` over the class table. -/
def detectBranches (p : SProject) (th : SThresholds) : List Smell :=
  p.classInfo.flatMap (detectBranchesClass p.filePaths th)

/-- The standard-library call prefixes of `detect_mpc`. -/
def mpcStdlibPrefixes : List String :=
  ["os.", "sys.", "datetime.", "collections.", "json.", "logging."]

/-- The framework call patterns excluded by `detect_mpc`. -/
def mpcFrameworkPatterns : List String :=
  ["get_", "set_", "is_", "has_", "__"]

/-- Frequency-map update (`defaultdict(int)` increment). -/
def bump (k : String) : List (String × Nat) → List (String × Nat)
  | [] => [(k, 1)]
  | (k2, n) :: rest => if k2 == k then (k2, n + 1) :: rest else (k2, n) :: bump k rest

/-- The call scan of `detect_mpc` for one class: the external call
frequencies and the internal call set, after the standard-library and
framework-pattern exclusions. -/
def mpcScan (c : SClass) : List (String × Nat) × List String :=
  c.methodCalls.foldl (fun acc kv =>
    kv.2.foldl (fun (acc2 : List (String × Nat) × List String) call =>
      if mpcStdlibPrefixes.any (fun p => strStartsWith call p) then acc2
      else if mpcFrameworkPatterns.any (fun p => strStartsWith call p) then acc2
      else if c.methods.any (fun m => m.name == call) then (acc2.1, sInsert call acc2.2)
      else (bump call acc2.1, acc2.2)) acc) ([], [])

/-- The weighted MPC metric: external calls weigh `1.5`, internal ones
`1`. -/
def mpcWeighted (c : SClass) : ℚ :=
  let scan := mpcScan c
  qAdd (qMul (((scan.1.map Prod.snd).sum : ℕ) : ℚ) (mkRat 3 2)) ((scan.2.length : ℚ))

/-- The most-frequent-calls listing of the MPC description.  The Python
source renders a dict literal here; the embedding renders the same
(name, count) pairs in the same order without the brace syntax.  No
theorem depends on this text. -/
def mpcTopCalls (freqs : List (String × Nat)) : String :=
  joinComma (((sortByCountDesc freqs).take 3).map
    (fun kv => kv.1 ++ ": " ++ toString kv.2))

/-- Loop body of `detect_mpc` for one class.  This rule is defined by the
detector but absent from the `detection_methods` list of
`detect_smells`. -/
def detectMpcClass (fps : List (String × String)) (th : SThresholds)
    (entry : String × SClass) : List Smell :=
  let scan := mpcScan entry.2
  let externalMpc := (scan.1.map Prod.snd).sum
  let internalMpc := scan.2.length
  let w := mpcWeighted entry.2
  if w > th.MPC_THRESHOLD then
    [{ name := "High Message Passing Coupling (MPC)"
     , description := "Class " ++ sq ++ entry.1 ++ sq ++ " has weighted MPC of " ++ fmt1 w
         ++ "\n(External calls: " ++ toString externalMpc ++ ", Internal calls: "
         ++ toString internalMpc ++ ")\nMost frequent external calls: " ++ mpcTopCalls scan.1
     , filePath := fpGet fps (rsplitModule entry.1)
     , moduleClass := some entry.1
     , lineNumber := none
     , severity := if w > qMul th.MPC_THRESHOLD (mkRat 3 2) then "High" else "Medium" }]
  else []

/-- `detect_mpc` over the class table (never reached by
`detect_smells`). -/
def detectMpc (p : SProject) (th : SThresholds) : List Smell :=
  p.classInfo.flatMap (detectMpcClass p.filePaths th)

/-- `StructuralSmellDetector.detect_smells` after a successful directory
analysis: nothing when no module was analyzed, otherwise the fixed
`detection_methods` list run in order.  The list names exactly
`detect_nom`, `detect_lcom`, `detect_rfc`, `detect_nocc`, `detect_dit`,
`detect_loc`, `detect_noc`, `detect_cyclomatic_complexity`,
`detect_fanout`, `detect_fanin`, `detect_file_length` and
`detect_branches`; the detector methods `detect_wmpc`, `detect_size2`,
`detect_wac`, `detect_mpc` and `detect_cbo` are not in it. -/
def detectSmellsStructural (p : SProject) (th : SThresholds) : List Smell :=
  if p.moduleInfo.isEmpty then []
  else
    detectNom p th ++ detectLcom p th ++ detectRfc p th ++ detectNocc p th
      ++ detectDit p th ++ detectLoc p th ++ detectNoc p th
      ++ detectCyclomaticComplexity p th ++ detectFanout p th ++ detectFanin p th
      ++ detectFileLength p th ++ detectBranches p th

/-- The finding names the twelve dispatched structural rules can emit. -/
def structuralRunNames : List String :=
  [ "High Number of Methods (NOM)"
  , "High Lack of Cohesion of Methods (LCOM)"
  , "High Response for a Class (RFC)"
  , "High Number of Classes (NOCC)"
  , "Deep Inheritance Tree (DIT)"
  , "Isolated Class in Inheritance Tree"
  , "High Lines of Code (LOC)"
  , "High Number of Classes (NOC)"
  , "High Cyclomatic Complexity"
  , "High Fan-out"
  , "High Fan-in"
  , "Long File"
  , "Too Many Branches" ]

/-!
## Cyclic-dependency detection
(`src` `architectural_smell_detector.py`, `detect_cyclic_dependencies`)

The detector runs on the intra-project module-dependency graph left by
`resolve_external_dependencies`.  `networkx.simple_cycles` (Johnson's
algorithm) enumerates every simple cycle exactly once; the embedding
enumerates each cycle rooted at its smallest-index node, which yields the
same cycles up to rotation.  Everything the rule computes afterwards
(length, node-set grouping, strength over the adjacent wrap-around pairs)
is invariant under rotation of the cycle listing.
-/

/-- Index of a node in the node list (used to root each cycle at its
smallest-index node). -/
def idxOf (nodes : List String) (n : String) : Nat :=
  nodes.indexOf n

/-- Depth-first enumeration of the simple cycles through `start` that
visit only nodes of index at least `start`'s; `path` is the reversed list
of visited nodes. -/
def cyclesFrom (g : DiGraph) (nodes : List String) (start : String) :
    Nat → String → List String → List (List String)
  | 0, _, _ => []
  | fuel + 1, current, path =>
    (successors g current).flatMap fun nxt =>
      if nxt == start then [path.reverse]
      else if idxOf nodes nxt < idxOf nodes start then []
      else if path.contains nxt then []
      else cyclesFrom g nodes start fuel nxt (nxt :: path)

/-- `networkx.simple_cycles`: every simple cycle of the graph, each
listed once, rooted at its smallest-index node. -/
def simpleCycles (g : DiGraph) : List (List String) :=
  g.nodes.flatMap fun start =>
    cyclesFrom g g.nodes start (g.nodes.length + 1) start [start]

/-- Count of the simple paths from `current` to `dst` avoiding `visited`
(depth-first, with enough fuel for any simple path). -/
def countPathsFrom (g : DiGraph) (dst : String) : Nat → String → List String → Nat
  | 0, _, _ => 0
  | fuel + 1, current, visited =>
    (successors g current).foldl (fun acc nxt =>
      if nxt == dst then acc + 1
      else if visited.contains nxt then acc
      else acc + countPathsFrom g dst fuel nxt (visited ++ [nxt])) 0

/-- `sum(1 for _ in nx.all_simple_paths(G, src, dst))` for distinct
endpoints; the rule only evaluates it on adjacent nodes of cycles of
length at least two, which are distinct. -/
def countSimplePaths (g : DiGraph) (src dst : String) : Nat :=
  if src == dst then 0 else countPathsFrom g dst (g.nodes.length + 1) src [src]

/-- The strength of a cycle: the simple-path counts summed over its
adjacent wrap-around pairs. -/
def cycleStrength (g : DiGraph) (cycle : List String) : Nat :=
  (List.range cycle.length).foldl (fun acc i =>
    acc + countSimplePaths g ((cycle[i]?).getD "") ((cycle[(i + 1) % cycle.length]?).getD "")) 0

/-- The module names whose cycles `detect_cyclic_dependencies` drops. -/
def cyclicExcludedModules : List String :=
  ["__init__", "utils", "common", "base", "core"]

/-- A cycle is dropped when any of its nodes contains an excluded name
as a lowercase substring. -/
def cycleTouchesExcluded (cycle : List String) : Bool :=
  cycle.any fun node => cyclicExcludedModules.any fun ex => containsSub (strLower node) ex

/-- The architectural thresholds the rule reads, both with `.get`
defaults. -/
structure ATh where
  MIN_CYCLE_SIZE : Option ℚ
  MAX_CYCLE_SIZE : Option ℚ
deriving Repr, DecidableEq

/-- The frozenset key of a cycle: its node set, canonically sorted. -/
def cycleKey (cycle : List String) : List String :=
  sortStrings (sUnion [] cycle)

/-- The `cycle_groups` table: cycles within the size window and away
from excluded modules, grouped by node set, each carrying its
strength. -/
def cycleGroups (g : DiGraph) (th : ATh) : List (List String × List (List String × Nat)) :=
  let minS := th.MIN_CYCLE_SIZE.getD 2
  let maxS := th.MAX_CYCLE_SIZE.getD 5
  (simpleCycles g).foldl (fun acc cycle =>
    if minS ≤ (cycle.length : ℚ) ∧ (cycle.length : ℚ) ≤ maxS then
      if cycleTouchesExcluded cycle then acc
      else agroupAppend (cycleKey cycle) (cycle, cycleStrength g cycle) acc
    else acc) []

/-- `max(cycle_group, key=lambda x: x[1])`: the first entry of maximal
strength. -/
def maxByStrength (l : List (List String × Nat)) : List String × Nat :=
  match l with
  | [] => ([], 0)
  | x :: rest => rest.foldl (fun best cur => if cur.2 > best.2 then cur else best) x

/-- The finding emitted for one cycle group. -/
def cyclicSmellOfGroup (fps : List (String × String))
    (grp : List String × List (List String × Nat)) : Smell :=
  let strongest := maxByStrength grp.2
  let cycle := strongest.1
  let strength := strongest.2
  { name := "Cyclic Dependency"
  , description := "Strong cyclic dependency detected: "
      ++ String.intercalate " -> " (cycle ++ [(cycle[0]?).getD ""])
      ++ "\nCycle strength: " ++ toString strength ++ " mutual dependencies"
  , filePath := fpGet fps ((cycle[0]?).getD "")
  , moduleClass := some ((cycle[0]?).getD "")
  , lineNumber := none
  , severity := if cycle.length ≥ 3 ∧ strength ≥ 3 then "high" else "medium" }

/-- `detect_cyclic_dependencies`: one finding per cycle group, for its
strongest representative. -/
def detectCyclicDependencies (g : DiGraph) (fps : List (String × String)) (th : ATh) :
    List Smell :=
  (cycleGroups g th).map (cyclicSmellOfGroup fps)

/-!
## CSV report writer (pyexamine `main.py`, `generate_csv_report`)

A written record is modelled as its list of cell strings, after the `csv`
module's conversion of `None` values to the empty string and before
delimiter/quote encoding (which is injective on the cell lists).
-/

/-- The `fieldnames` row. -/
def csvHeader : List String :=
  ["Type", "Name", "Description", "File", "Module/Class", "Line Number", "Severity"]

/-- `None` serializes as the empty string. -/
def cellOptStr : Option String → String
  | some s => s
  | none => ""

/-- `None` serializes as the empty string; a number via `str`. -/
def cellOptNat : Option Nat → String
  | some n => toString n
  | none => ""

/-- The `writerow` record for one smell under the given `Type` tag. -/
def csvRow (ty : String) (s : Smell) : List String :=
  [ty, s.name, s.description, s.filePath, cellOptStr s.moduleClass,
    cellOptNat s.lineNumber, s.severity]

/-- `generate_csv_report`: the header row, then the three `writerow`
loops in the source order structural, code, architectural. -/
def generateCsvReport (codeSmells architecturalSmells structuralSmells : List Smell) :
    List (List String) :=
  let rows1 := structuralSmells.foldl (fun acc s => acc ++ [csvRow "Structural" s]) [csvHeader]
  let rows2 := codeSmells.foldl (fun acc s => acc ++ [csvRow "Code" s]) rows1
  architecturalSmells.foldl (fun acc s => acc ++ [csvRow "Architectural" s]) rows2

/-!
## Configuration handler (`src` `config_handler.py`)

`load_thresholds` extracts the `value` entry of every threshold mapping;
a value can be any YAML scalar, so the embedding keeps it as a tagged
value.  `_validate_thresholds` only logs warnings; `get_thresholds`
returns the loaded bundle unchanged.
-/

/-- A loaded `value` entry. -/
inductive YamlVal where
  /-- an `int` or `float` value (a Python `bool` is an `int` and
  corresponds to `num 0` or `num 1`) -/
  | num (q : ℚ)
  | str (s : String)
  | nullv
  | other
deriving Repr, DecidableEq

/-- The three extracted bundles of `self.thresholds`. -/
structure RawThresholds where
  code_smells : List (String × YamlVal)
  architectural_smells : List (String × YamlVal)
  structural_smells : List (String × YamlVal)
deriving Repr, DecidableEq

/-- The mandatory structural threshold names. -/
def requiredStructuralThresholds : List String :=
  [ "NOM_THRESHOLD", "WMPC1_THRESHOLD", "WMPC2_THRESHOLD"
  , "SIZE2_THRESHOLD", "WAC_THRESHOLD", "LCOM_THRESHOLD"
  , "RFC_THRESHOLD", "NOCC_THRESHOLD", "DIT_THRESHOLD"
  , "LOC_THRESHOLD", "CBO_THRESHOLD" ]

/-- `isinstance(value, (int, float)) and value > 0` -/
def isValidThresholdVal : YamlVal → Bool
  | .num q => q > 0
  | _ => false

/-- `_validate_thresholds`: the warnings logged.  Nothing is modified or
replaced. -/
def validateThresholds (cfg : RawThresholds) : List String :=
  let missing := requiredStructuralThresholds.filter
    (fun k => (cfg.structural_smells.lookup k).isNone)
  (if missing.isEmpty then []
   else ["Missing required structural thresholds: " ++ joinComma missing])
    ++ (cfg.structural_smells.filter (fun kv => ¬ isValidThresholdVal kv.2)).map
        (fun kv => "Invalid threshold value for " ++ kv.1)

/-- `get_thresholds`: `self.thresholds.get(smell_type, {})`, returning
the loaded values untouched. -/
def getThresholds (cfg : RawThresholds) (smellType : String) : List (String × YamlVal) :=
  if smellType == "code_smells" then cfg.code_smells
  else if smellType == "architectural_smells" then cfg.architectural_smells
  else if smellType == "structural_smells" then cfg.structural_smells
  else []

/-!
## Concrete instances

Small concrete projects, modules and configurations used to settle the
claims on explicit inputs.
-/

/-- `t` is a top-level `FunctionDef`. -/
def isFuncTop : CTop → Bool
  | .func _ => true
  | _ => false

/-- The module restricted to its top-level function definitions. -/
def restrictFuncs (m : CModule) : CModule :=
  { m with body := m.body.filter isFuncTop }

/-- The module with its top-level function definitions removed. -/
def dropFuncs (m : CModule) : CModule :=
  { m with body := m.body.filter (fun t => ¬ isFuncTop t) }

/-- Replace the body of every top-level function (nested definitions
included) according to `tr`. -/
def mapFuncBodies (tr : CFunc → List CBodyItem) (m : CModule) : CModule :=
  { m with body := m.body.map (fun t => match t with
      | .func f => .func { f with body := tr f }
      | x => x) }

/-- A finding with its description erased, used to compare runs up to
description text. -/
def stripDescription (s : Smell) : Smell :=
  { s with description := "" }

/-- A method with no control flow and no field access. -/
def exRunMethod : SMethod :=
  { name := "run", decoratorList := [], args := ["self"], lineno := 2, selfAttrs := []
  , ifNodeCount := 0, elifChildSum := 0, loopNodeCount := 0, tryNodeCount := 0
  , exceptHandlerCount := 0, boolopExtraSum := 0, branchCount := 0, maxNesting := 0 }

/-- A class whose single method performs two external calls, giving it a
weighted MPC of `3`. -/
def exMpcClass : SClass :=
  { methods := [exRunMethod], fields := [], methodCalls := [("run", ["alpha", "beta"])]
  , baseClasses := [], loc := 5 }

/-- A one-module project containing `exMpcClass`. -/
def exMpcProject : SProject :=
  { classInfo := [("m.C", exMpcClass)], moduleInfo := [("m", ⟨["x = 1"]⟩)]
  , filePaths := [("m", "m.py")], depEdges := [], projectRoot := "proj" }

/-- A structural configuration whose `MPC_THRESHOLD` is `1` and whose
other thresholds are far from being reached by the small projects. -/
def exThresholdsMpc : SThresholds :=
  { NOM_THRESHOLD := some 10, LCOM_THRESHOLD := 100, RFC_THRESHOLD := 100
  , NOCC_THRESHOLD := 100, DIT_THRESHOLD := 5, LOC_THRESHOLD := 100, NOC_THRESHOLD := 100
  , CYCLOMATIC_COMPLEXITY_THRESHOLD := some 10, MAX_FANOUT := some 15, MAX_FANIN := some 15
  , MAX_FILE_LENGTH := some 250, MAX_BRANCHES := some 10, MPC_THRESHOLD := 1 }

/-- A one-module project with three code lines and no class. -/
def exLocProject : SProject :=
  { classInfo := [], moduleInfo := [("m", ⟨["a = 1", "b = 2", "c = 3"]⟩)]
  , filePaths := [("m", "m.py")], depEdges := [], projectRoot := "proj" }

/-- The same configuration with `LOC_THRESHOLD` lowered to `2`, which
`exLocProject` exceeds. -/
def exThresholdsLoc : SThresholds :=
  { exThresholdsMpc with LOC_THRESHOLD := 2 }

/-- A placeholder finding value. -/
def someSmell : Smell :=
  { name := "", description := "", filePath := "", moduleClass := none
  , lineNumber := none, severity := "" }

/-- A twelve-line top-level function. -/
def exLongFunc : CFunc :=
  { name := "bigfunc", decorators := [], args := [], annotations := []
  , hasVararg := false, hasKwarg := false, fromlineno := 1, tolineno := 12, lineno := 1
  , assignNames := [], selfAttrs := [], hasCacheConst := false, body := [] }

/-- A module whose only statement is `exLongFunc` over twelve non-empty
lines. -/
def exLongModule : CModule :=
  { body := [.func exLongFunc], fileContent := List.replicate 12 "x = 1" }

/-- A code-smell configuration with `LONG_METHOD_LINES = 2`. -/
def exCodeTh : CThresholds :=
  { LONG_METHOD_LINES := 2, PRIMITIVE_OBSESSION_COUNT := 3, LONG_PARAMETER_LIST := 3
  , DATA_CLUMPS_THRESHOLD := 3, TEMPORARY_FIELD_THRESHOLD := 2
  , ALTERNATIVE_CLASSES_THRESHOLD := 2, DIVERGENT_CHANGE_PREFIXES := 3
  , DIVERGENT_CHANGE_METHODS := 5 }

/-- The same configuration with `LONG_METHOD_LINES = 12`, which
`exLongFunc` does not exceed. -/
def exCodeThTwelve : CThresholds :=
  { exCodeTh with LONG_METHOD_LINES := 12 }

/-- A small method for the alternative-classes instances. -/
def mkSimpleMethod (nm : String) : CFunc :=
  { name := nm, decorators := [], args := ["self"], annotations := []
  , hasVararg := false, hasKwarg := false, fromlineno := 1, tolineno := 2, lineno := 1
  , assignNames := [], selfAttrs := [], hasCacheConst := false, body := [] }

/-- A class `Alpha(BaseOne)` with methods `foo` and `bar`. -/
def exAlpha : CClass :=
  { name := "Alpha", decorators := [], bases := [.bName "BaseOne"]
  , methods := [mkSimpleMethod "foo", mkSimpleMethod "bar"], lineno := 1 }

/-- A class `Beta(BaseTwo)` with the same method set and a different,
unshared base class. -/
def exBeta : CClass :=
  { name := "Beta", decorators := [], bases := [.bName "BaseTwo"]
  , methods := [mkSimpleMethod "foo", mkSimpleMethod "bar"], lineno := 10 }

/-- A module with the two same-interface classes with distinct bases. -/
def exAltModule : CModule :=
  { body := [.cls exAlpha, .cls exBeta], fileContent := [] }

/-- The same two classes with no base classes at all. -/
def exAltModuleNoBases : CModule :=
  { body := [.cls { exAlpha with bases := [] }, .cls { exBeta with bases := [] }]
  , fileContent := [] }

/-- A constructor assigning two fields never read elsewhere. -/
def exInitMethod : CFunc :=
  { name := "__init__", decorators := [], args := ["self"], annotations := []
  , hasVararg := false, hasKwarg := false, fromlineno := 2, tolineno := 4, lineno := 2
  , assignNames := ["aa", "bb"], selfAttrs := [], hasCacheConst := false, body := [] }

/-- A class with the two temporary fields `aa` and `bb`. -/
def exKeeperClass : CClass :=
  { name := "Keeper", decorators := [], bases := [], methods := [exInitMethod], lineno := 1 }

/-- A module containing only `exKeeperClass`. -/
def exTempModule : CModule :=
  { body := [.cls exKeeperClass], fileContent := [] }

/-- A finding produced by a first, succeeding rule. -/
def exSmellA : Smell :=
  { name := "Long Method", description := "d1", filePath := "f.py"
  , moduleClass := some "g", lineNumber := some 1, severity := "" }

/-- A finding a later rule would produce if it were reached. -/
def exSmellB : Smell :=
  { name := "Primitive Obsession", description := "d3", filePath := "f.py"
  , moduleClass := some "h", lineNumber := some 9, severity := "" }

/-- Rule outcomes for one file: the first rule succeeds, the second
raises, the third would succeed. -/
def exRules : List (String × RuleOutcome) :=
  [ ("detect_long_methods", .ok [exSmellA])
  , ("detect_large_classes", .raises "boom")
  , ("detect_primitive_obsession", .ok [exSmellB]) ]

/-- The two-module cycle `a -> b -> a`. -/
def exGraphAB : DiGraph := ⟨["a", "b"], [("a", "b"), ("b", "a")]⟩

/-- The three-module cycle `a -> b -> c -> a`. -/
def exGraphTri : DiGraph := ⟨["a", "b", "c"], [("a", "b"), ("b", "c"), ("c", "a")]⟩

/-- File paths for the cycle instances. -/
def exFpsAB : List (String × String) := [("a", "a.py"), ("b", "b.py")]

/-- Architectural thresholds left to their defaults. -/
def exAThDefaults : ATh := ⟨none, none⟩

/-- A configuration whose `NOM_THRESHOLD` value is the negative number
`-5` and whose other structural entries are valid. -/
def exBadConfig : RawThresholds :=
  { code_smells := []
  , architectural_smells := []
  , structural_smells :=
      [ ("NOM_THRESHOLD", .num (-5)), ("WMPC1_THRESHOLD", .num 1)
      , ("WMPC2_THRESHOLD", .num 1), ("SIZE2_THRESHOLD", .num 1)
      , ("WAC_THRESHOLD", .num 1), ("LCOM_THRESHOLD", .num 1)
      , ("RFC_THRESHOLD", .num 1), ("NOCC_THRESHOLD", .num 1)
      , ("DIT_THRESHOLD", .num 1), ("LOC_THRESHOLD", .num 1)
      , ("CBO_THRESHOLD", .num 1) ] }

/-- The findings one rule outcome contributes. -/
def ruleSmells (r : String × RuleOutcome) : List Smell :=
  match r.2 with
  | .ok sm => sm
  | .raises _ => []

/-- Whether a rule outcome is a success. -/
def isOkOutcome (r : String × RuleOutcome) : Bool :=
  match r.2 with
  | .ok _ => true
  | .raises _ => false

/-!
## Bridge lemmas

The kernel-reducible rational operations agree with the standard
operations on `ℚ`.
-/

theorem qMul_eq (a b : ℚ) : qMul a b = a * b := by
  unfold qMul
  rw [Rat.mkRat_eq_div]
  push_cast
  rw [← div_mul_div_comm, Rat.num_div_den, Rat.num_div_den]

theorem qAdd_eq (a b : ℚ) : qAdd a b = a + b := by
  have ha : (a.den : ℚ) ≠ 0 := by exact_mod_cast a.den_nz
  have hb : (b.den : ℚ) ≠ 0 := by exact_mod_cast b.den_nz
  conv_rhs => rw [← Rat.num_div_den a, ← Rat.num_div_den b]
  unfold qAdd
  rw [Rat.mkRat_eq_div]
  push_cast
  field_simp

theorem qSub_eq (a b : ℚ) : qSub a b = a - b := by
  have ha : (a.den : ℚ) ≠ 0 := by exact_mod_cast a.den_nz
  have hb : (b.den : ℚ) ≠ 0 := by exact_mod_cast b.den_nz
  conv_rhs => rw [← Rat.num_div_den a, ← Rat.num_div_den b]
  unfold qSub
  rw [Rat.mkRat_eq_div]
  push_cast
  field_simp
  ring

theorem qDiv_eq (a b : ℚ) : qDiv a b = a / b := by
  rcases eq_or_ne b 0 with rfl | hb
  · unfold qDiv
    norm_num [Rat.mkRat_eq_div]
  · have hbn : b.num ≠ 0 := Rat.num_ne_zero.mpr hb
    have ha : (a.den : ℚ) ≠ 0 := by exact_mod_cast a.den_nz
    have hbd : (b.den : ℚ) ≠ 0 := by exact_mod_cast b.den_nz
    have hbq : (b.num : ℚ) ≠ 0 := by exact_mod_cast hbn
    conv_rhs => rw [← Rat.num_div_den a, ← Rat.num_div_den b]
    unfold qDiv
    rcases lt_or_ge b.num 0 with hlt | hge
    · have habs : ((b.num.natAbs : ℕ) : ℚ) = -(b.num : ℚ) := by
        rw [Int.cast_natAbs, Int.cast_abs]
        exact abs_of_neg (by exact_mod_cast hlt)
      rw [if_pos hlt, Rat.mkRat_eq_div]
      push_cast [habs]
      field_simp
    · have habs : ((b.num.natAbs : ℕ) : ℚ) = (b.num : ℚ) := by
        rw [Int.cast_natAbs, Int.cast_abs]
        exact abs_of_nonneg (by exact_mod_cast hge)
      rw [if_neg (not_lt.mpr hge), Rat.mkRat_eq_div]
      push_cast [habs]
      field_simp

/-!
## General lemmas
-/

theorem foldl_append_map {α β : Type} (l : List α) (f : α → β) (init : List β) :
    l.foldl (fun acc s => acc ++ [f s]) init = init ++ l.map f := by
  induction l generalizing init with
  | nil => simp
  | cons a t ih => simp [ih]

theorem flatMap_filter_of_vanish {α β : Type} (p : α → Bool) (f : α → List β)
    (h : ∀ a, p a = false → f a = []) (l : List α) :
    (l.filter p).flatMap f = l.flatMap f := by
  induction l with
  | nil => rfl
  | cons a t ih =>
    cases hp : p a with
    | true => simp [List.filter_cons, hp, ih]
    | false => simp [List.filter_cons, hp, ih, h a hp]

theorem flatMap_vanish_eq_nil {α β : Type} (f : α → List β) (l : List α)
    (h : ∀ a ∈ l, f a = []) : l.flatMap f = [] := by
  induction l with
  | nil => rfl
  | cons a t ih =>
    simp [h a (List.mem_cons_self a t), ih (fun x hx => h x (List.mem_cons_of_mem _ hx))]

theorem foldl_skip_eq_init {α β : Type} (g : β → α → β) (l : List α) (init : β)
    (h : ∀ acc, ∀ a ∈ l, g acc a = acc) : l.foldl g init = init := by
  induction l generalizing init with
  | nil => rfl
  | cons a t ih =>
    rw [List.foldl_cons, h init a (List.mem_cons_self a t)]
    exact ih init (fun acc x hx => h acc x (List.mem_cons_of_mem _ hx))

theorem flatMap_congr_mem {α β : Type} {f g : α → List β} (l : List α)
    (h : ∀ a ∈ l, f a = g a) : l.flatMap f = l.flatMap g := by
  induction l with
  | nil => rfl
  | cons a t ih =>
    simp [h a (List.mem_cons_self a t), ih (fun x hx => h x (List.mem_cons_of_mem _ hx))]

theorem mem_flatMap_prop {α β : Type} {P : β → Prop} {f : α → List β}
    (h : ∀ a, ∀ s ∈ f a, P s) {l : List α} {s : β} (hs : s ∈ l.flatMap f) : P s := by
  rcases List.mem_flatMap.mp hs with ⟨a, _, hsa⟩
  exact h a s hsa

theorem foldl_filter_of_skip {α β : Type} (p : α → Bool) (g : β → α → β) (l : List α) (init : β)
    (h : ∀ acc a, p a = false → g acc a = acc) : (l.filter p).foldl g init = l.foldl g init := by
  induction l generalizing init with
  | nil => rfl
  | cons a t ih =>
    cases hp : p a with
    | true => simp [List.filter_cons, hp, ih]
    | false => simp [List.filter_cons, hp, ih, h init a hp]

theorem flatMap_map_congr {α β : Type} (g : α → α) (f : α → List β) (l : List α)
    (h : ∀ a, f (g a) = f a) : (l.map g).flatMap f = l.flatMap f := by
  induction l with
  | nil => rfl
  | cons a t ih => simp [h a, ih]

theorem foldl_map_congr {α β : Type} (g : α → α) (f : β → α → β) (l : List α) (init : β)
    (h : ∀ acc a, f acc (g a) = f acc a) : (l.map g).foldl f init = l.foldl f init := by
  induction l generalizing init with
  | nil => rfl
  | cons a t ih => simp [h init a, ih]

theorem map_flatMap_eq {α β γ : Type} (g : β → γ) (f : α → List β) (l : List α) :
    (l.flatMap f).map g = l.flatMap (fun a => (f a).map g) := by
  induction l with
  | nil => rfl
  | cons a t ih => simp [ih]

theorem all_flatMap_eq {α β : Type} (p : β → Bool) (f : α → List β) (l : List α) :
    (l.flatMap f).all p = l.all (fun a => (f a).all p) := by
  induction l with
  | nil => rfl
  | cons a t ih => simp [ih]

theorem stripDescription_tempClass (enum1 enum2 : List String → List String) (fp : String)
    (th : CThresholds) (c : CClass) :
    (detectTemporaryFieldsClass enum1 fp th c).map stripDescription
      = (detectTemporaryFieldsClass enum2 fp th c).map stripDescription := by
  simp only [detectTemporaryFieldsClass]
  split_ifs <;> rfl

theorem stripDescription_divClass (enum1 enum2 : List String → List String) (fp : String)
    (th : CThresholds) (c : CClass) :
    (detectDivergentChangeClass enum1 fp th c).map stripDescription
      = (detectDivergentChangeClass enum2 fp th c).map stripDescription := by
  simp only [detectDivergentChangeClass]
  split_ifs <;> rfl

/-!
## Claims
-/

/-- C3.  For every triple of finding lists, the CSV report written by
`generate_csv_report` is the exact header `Type, Name, Description, File,
Module/Class, Line Number, Severity` followed by one seven-cell row per
finding, grouped structural, then code, then architectural, with the
missing optional fields (`None` module/class and line number) serialized
as the empty string. -/
theorem C3_csv_report_layout (codeSmells architecturalSmells structuralSmells : List Smell) :
    generateCsvReport codeSmells architecturalSmells structuralSmells
      = csvHeader :: (structuralSmells.map (csvRow "Structural")
          ++ codeSmells.map (csvRow "Code")
          ++ architecturalSmells.map (csvRow "Architectural"))
    ∧ (generateCsvReport codeSmells architecturalSmells structuralSmells).length
        = 1 + structuralSmells.length + codeSmells.length + architecturalSmells.length
    ∧ csvHeader = ["Type", "Name", "Description", "File", "Module/Class", "Line Number", "Severity"]
    ∧ (∀ ty s, csvRow ty s = [ty, s.name, s.description, s.filePath,
        cellOptStr s.moduleClass, cellOptNat s.lineNumber, s.severity])
    ∧ cellOptNat none = "" ∧ cellOptStr none = "" := by
  have h : generateCsvReport codeSmells architecturalSmells structuralSmells
      = csvHeader :: (structuralSmells.map (csvRow "Structural")
          ++ codeSmells.map (csvRow "Code")
          ++ architecturalSmells.map (csvRow "Architectural")) := by
    unfold generateCsvReport
    rw [foldl_append_map, foldl_append_map, foldl_append_map]
    simp
  refine ⟨h, ?_, rfl, fun ty s => rfl, rfl, rfl⟩
  rw [h]
  simp
  omega

/-- C4.  Cyclic-dependency detection emits exactly one finding per
node-set group of the kept simple cycles; the finding carries severity
`high` exactly when its strongest representative has length at least
three and strength at least three, and `medium` otherwise.  On the
two-module cycle `a -> b -> a` the run yields exactly one
`Cyclic Dependency` finding of severity `medium` (for the group of the
single cycle `[a, b]`, whose strength is `2`), and on the triangle
`a -> b -> c -> a` exactly one of severity `high`. -/
theorem C4_cyclic_dependency_grouping :
    (∀ (g : DiGraph) (fps : List (String × String)) (th : ATh),
      (detectCyclicDependencies g fps th).length = (cycleGroups g th).length)
    ∧ (∀ (fps : List (String × String)) (grp : List String × List (List String × Nat)),
      (cyclicSmellOfGroup fps grp).severity
        = if (maxByStrength grp.2).1.length ≥ 3 ∧ (maxByStrength grp.2).2 ≥ 3 then "high"
          else "medium")
    ∧ (∀ (fps : List (String × String)) (grp : List String × List (List String × Nat)),
      (cyclicSmellOfGroup fps grp).name = "Cyclic Dependency")
    ∧ (detectCyclicDependencies exGraphAB exFpsAB exAThDefaults).map
        (fun s => (s.name, s.severity, s.moduleClass))
      = [("Cyclic Dependency", "medium", some "a")]
    ∧ (detectCyclicDependencies exGraphTri exFpsAB exAThDefaults).map
        (fun s => (s.name, s.severity)) = [("Cyclic Dependency", "high")] := by
  refine ⟨fun g fps th => ?_, fun fps grp => rfl, fun fps grp => rfl, by decide, by decide⟩
  unfold detectCyclicDependencies
  exact List.length_map _ _

/-- C2 (counterexample).  On a file where the first rule succeeds with
one finding, the second raises and a third would succeed: the third
rule's finding is missing (the remaining rules are not executed), the
surfaced error's `function_name` is `None` (the outer wrap drops it), and
only the per-file loop's continuation keeps later files analyzed. -/
theorem C2_counterexample :
    (codeDetectSmells "f.py" exRules).1 = [exSmellA]
    ∧ exSmellB ∉ (codeDetectSmells "f.py" exRules).1
    ∧ (codeDetectSmells "f.py" exRules).2.isSome = true
    ∧ ((codeDetectSmells "f.py" exRules).2.getD ⟨"", none, none, none⟩).functionName = none
    ∧ analyzeCodeSmellsFiles
        [("f.py", exRules), ("g.py", [("detect_long_methods", .ok [exSmellB])])]
      = [exSmellA, exSmellB] := by
  refine ⟨by decide, by decide, by decide, by decide, by decide⟩

/-- C2 (amended).  When a code-smell rule raises while analyzing a file,
the rule boundary wraps the failure into a `CodeAnalysisError` carrying
the file path and the rule name, but `detect_smells` re-wraps it at the
file boundary into a `CodeAnalysisError` whose `function_name` is `None`;
the rules after the failing one are not executed on that file, while the
findings of the earlier successful rules are kept. -/
theorem C2_rule_error_flow (fp nm msg : String) (pre post : List (String × RuleOutcome))
    (h : ∀ r ∈ pre, isOkOutcome r = true) :
    codeDetectSmells fp (pre ++ (nm, .raises msg) :: post)
      = (pre.flatMap ruleSmells,
         some { message := "Unexpected error: " ++ caeStr
                  { message := "Error in " ++ nm ++ ": " ++ msg, filePath := some fp
                  , lineNumber := none, functionName := some nm }
              , filePath := some fp, lineNumber := none, functionName := none }) := by
  have key : runDetectionLoop fp (pre ++ (nm, .raises msg) :: post)
      = (pre.flatMap ruleSmells,
         some { message := "Error in " ++ nm ++ ": " ++ msg, filePath := some fp
              , lineNumber := none, functionName := some nm }) := by
    induction pre with
    | nil => rfl
    | cons r t ih =>
      obtain ⟨rn, ro⟩ := r
      cases ro with
      | ok sm =>
        have ht := ih (fun x hx => h x (List.mem_cons_of_mem _ hx))
        simp [runDetectionLoop, ht, ruleSmells]
      | raises m =>
        exact absurd (h (rn, .raises m) (List.mem_cons_self _ _)) (by simp [isOkOutcome])
  unfold codeDetectSmells
  rw [key]

/-- C2 (witness): the amended statement at the concrete rule list. -/
theorem C2_rule_error_flow_witness :
    codeDetectSmells "f.py" exRules
      = ([exSmellA],
         some { message := "Unexpected error: " ++ caeStr
                  { message := "Error in detect_large_classes: boom", filePath := some "f.py"
                  , lineNumber := none, functionName := some "detect_large_classes" }
              , filePath := some "f.py", lineNumber := none, functionName := none }) := by
  have h := C2_rule_error_flow "f.py" "detect_large_classes" "boom"
    [("detect_long_methods", .ok [exSmellA])]
    [("detect_primitive_obsession", .ok [exSmellB])] (by decide)
  simpa [exRules, ruleSmells] using h

/-- C7.  The strict-comparison rules emit nothing at or below their
thresholds: a class whose regular-method count does not exceed the
configured `NOM_THRESHOLD` contributes no NOM finding, and a function
whose counted line number does not exceed `LONG_METHOD_LINES` contributes
no Long Method finding. -/
theorem C7_threshold_boundary :
    (∀ (fps : List (String × String)) (th : SThresholds) (q : ℚ) (entry : String × SClass),
      th.NOM_THRESHOLD = some q → ((regularMethods entry.2).length : ℚ) ≤ q →
      detectNomClass fps th entry = [])
    ∧ (∀ (content : List String) (fp : String) (th : CThresholds) (f : CFunc),
      ((actualLines content f.fromlineno f.tolineno : ℕ) : ℚ) ≤ th.LONG_METHOD_LINES →
      detectLongMethodsFunc content fp th f = []) := by
  constructor
  · intro fps th q entry hq hle
    by_cases h0 : q = 0
    · subst h0
      have hz : (regularMethods entry.2).length = 0 := by
        have hle2 : ((regularMethods entry.2).length : ℚ) ≤ 0 := hle
        exact_mod_cast le_antisymm (by exact_mod_cast hle2) (Nat.zero_le _)
      simp [detectNomClass, nomEffectiveThreshold, hq, hz]
    · have hgt : ¬ ((regularMethods entry.2).length : ℚ) > q := not_lt.mpr hle
      simp [detectNomClass, nomEffectiveThreshold, hq, h0, hgt]
  · intro content fp th f hle
    unfold detectLongMethodsFunc
    split
    · rfl
    · rw [if_neg (not_lt.mpr hle)]

/-- C7 (witness): the boundary statement at a one-method class under the
NOM threshold `10` and at the twelve-line function under the raised
`LONG_METHOD_LINES` threshold `12`. -/
theorem C7_threshold_boundary_witness :
    detectNomClass exFpsAB exThresholdsMpc ("m.C", exMpcClass) = []
    ∧ detectLongMethodsFunc exLongModule.fileContent "f.py" exCodeThTwelve exLongFunc = [] :=
  ⟨C7_threshold_boundary.1 exFpsAB exThresholdsMpc 10 ("m.C", exMpcClass) (by decide) (by decide),
   C7_threshold_boundary.2 exLongModule.fileContent "f.py" exCodeThTwelve exLongFunc (by decide)⟩

/-- C9 (counterexample).  A configuration whose `NOM_THRESHOLD` value is
`-5` does trigger the invalid-value warning, but `get_thresholds` hands
the structural bundle over unchanged, so it still contains the
non-positive value — nothing is replaced by a default. -/
theorem C9_counterexample :
    ("NOM_THRESHOLD", YamlVal.num (-5)) ∈ getThresholds exBadConfig "structural_smells"
    ∧ isValidThresholdVal (YamlVal.num (-5)) = false
    ∧ "Invalid threshold value for NOM_THRESHOLD" ∈ validateThresholds exBadConfig := by
  refine ⟨by decide, by decide, by decide⟩

/-- C9 (amended).  `_validate_thresholds` emits a warning for every
structural entry that is not a strictly positive number, and
`get_thresholds` returns the loaded structural bundle unchanged, so
invalid values are warned about but never replaced. -/
theorem C9_validation_only_warns (cfg : RawThresholds) :
    getThresholds cfg "structural_smells" = cfg.structural_smells
    ∧ ∀ kv ∈ cfg.structural_smells, isValidThresholdVal kv.2 = false →
        ("Invalid threshold value for " ++ kv.1) ∈ validateThresholds cfg := by
  constructor
  · simp [getThresholds]
  · intro kv hkv hbad
    unfold validateThresholds
    apply List.mem_append_right
    exact List.mem_map.mpr ⟨kv, List.mem_filter.mpr ⟨hkv, by simp [hbad]⟩, rfl⟩

/-- C9 (witness): the amended statement at the concrete configuration
with the negative `NOM_THRESHOLD`. -/
theorem C9_validation_only_warns_witness :
    getThresholds exBadConfig "structural_smells" = exBadConfig.structural_smells
    ∧ "Invalid threshold value for NOM_THRESHOLD" ∈ validateThresholds exBadConfig :=
  ⟨(C9_validation_only_warns exBadConfig).1,
   (C9_validation_only_warns exBadConfig).2 ("NOM_THRESHOLD", .num (-5)) (by decide) (by decide)⟩

/-- C10.  The Long Method, Primitive Obsession, Long Parameter List and
Data Clumps rules read only the top-level function definitions of
`module.body`: their output is unchanged when all non-function top-level
statements (classes with all their methods) are removed, it is empty on a
module whose top-level statements contain no function definition, and it
is unchanged when the body of every top-level function (nested
definitions included) is replaced arbitrarily. -/
theorem C10_top_level_only (m : CModule) (fp : String) (th : CThresholds)
    (tr : CFunc → List CBodyItem) :
    (detectLongMethods (restrictFuncs m) fp th = detectLongMethods m fp th
      ∧ detectPrimitiveObsession (restrictFuncs m) fp th = detectPrimitiveObsession m fp th
      ∧ detectLongParameterLists (restrictFuncs m) fp th = detectLongParameterLists m fp th
      ∧ detectDataClumps (restrictFuncs m) fp th = detectDataClumps m fp th)
    ∧ (detectLongMethods (dropFuncs m) fp th = []
      ∧ detectPrimitiveObsession (dropFuncs m) fp th = []
      ∧ detectLongParameterLists (dropFuncs m) fp th = []
      ∧ detectDataClumps (dropFuncs m) fp th = [])
    ∧ (detectLongMethods (mapFuncBodies tr m) fp th = detectLongMethods m fp th
      ∧ detectPrimitiveObsession (mapFuncBodies tr m) fp th = detectPrimitiveObsession m fp th
      ∧ detectLongParameterLists (mapFuncBodies tr m) fp th = detectLongParameterLists m fp th
      ∧ detectDataClumps (mapFuncBodies tr m) fp th = detectDataClumps m fp th) := by
  have hdropAll : ∀ t ∈ m.body.filter (fun t => ¬ isFuncTop t), isFuncTop t = false := by
    intro t ht
    have := List.of_mem_filter ht
    simpa using this
  refine ⟨⟨?_, ?_, ?_, ?_⟩, ⟨?_, ?_, ?_, ?_⟩, ⟨?_, ?_, ?_, ?_⟩⟩
  · exact flatMap_filter_of_vanish _ _ (fun t hf => by cases t <;> simp_all [isFuncTop]) m.body
  · exact flatMap_filter_of_vanish _ _ (fun t hf => by cases t <;> simp_all [isFuncTop]) m.body
  · exact flatMap_filter_of_vanish _ _ (fun t hf => by cases t <;> simp_all [isFuncTop]) m.body
  · have hg : dataClumpsGroups th (restrictFuncs m).body = dataClumpsGroups th m.body := by
      show dataClumpsGroups th (m.body.filter isFuncTop) = dataClumpsGroups th m.body
      unfold dataClumpsGroups
      exact foldl_filter_of_skip _ _ _ _ (fun acc t ht => by cases t <;> simp_all [isFuncTop])
    unfold detectDataClumps
    rw [hg]
  · exact flatMap_vanish_eq_nil _ _ (fun t ht => by
      have hf := hdropAll t ht
      cases t <;> simp_all [isFuncTop])
  · exact flatMap_vanish_eq_nil _ _ (fun t ht => by
      have hf := hdropAll t ht
      cases t <;> simp_all [isFuncTop])
  · exact flatMap_vanish_eq_nil _ _ (fun t ht => by
      have hf := hdropAll t ht
      cases t <;> simp_all [isFuncTop])
  · have hg : dataClumpsGroups th (dropFuncs m).body = [] := by
      show dataClumpsGroups th (m.body.filter (fun t => ¬ isFuncTop t)) = []
      unfold dataClumpsGroups
      exact foldl_skip_eq_init _ _ _ (fun acc t ht => by
        have hf := hdropAll t ht
        cases t <;> simp_all [isFuncTop])
    unfold detectDataClumps
    rw [hg]
    rfl
  · exact flatMap_map_congr _ _ m.body (fun t => by cases t <;> rfl)
  · exact flatMap_map_congr _ _ m.body (fun t => by cases t <;> rfl)
  · exact flatMap_map_congr _ _ m.body (fun t => by cases t <;> rfl)
  · have hg : dataClumpsGroups th (mapFuncBodies tr m).body = dataClumpsGroups th m.body := by
      show dataClumpsGroups th (m.body.map (fun t => match t with
          | CTop.func f => CTop.func { f with body := tr f }
          | x => x)) = dataClumpsGroups th m.body
      unfold dataClumpsGroups
      exact foldl_map_congr _ _ _ _ (fun acc t => by cases t <;> rfl)
    unfold detectDataClumps
    rw [hg]

/-- C8 (counterexample).  Reversal is a permutation of the temporary-field
set of the `Keeper` class — a set-iteration order CPython may use in
another run — yet the CSV report of the temporary-field rule under the
identity order differs from the one under the reversed order: the two runs
are not byte-identical, though they agree once descriptions are erased. -/
theorem C8_counterexample :
    (List.reverse (tempFieldsOf exKeeperClass)).Perm (tempFieldsOf exKeeperClass)
    ∧ generateCsvReport (detectTemporaryFieldsWith id exTempModule "k.py" exCodeTh) [] []
        ≠ generateCsvReport (detectTemporaryFieldsWith List.reverse exTempModule "k.py" exCodeTh) [] []
    ∧ (detectTemporaryFieldsWith id exTempModule "k.py" exCodeTh).map stripDescription
        = (detectTemporaryFieldsWith List.reverse exTempModule "k.py" exCodeTh).map
            stripDescription := by
  refine ⟨by decide, by decide, by decide⟩

/-- C8 (amended).  The set-iteration order reaches only the `Description`
text of the Temporary Field and Divergent Change findings: under any two
iteration orders the two rules produce the same findings once descriptions
are erased (same names, files, classes, line numbers and severities, in
the same order). -/
theorem C8_enum_independent_up_to_description (enum1 enum2 : List String → List String)
    (m : CModule) (fp : String) (th : CThresholds) :
    (detectTemporaryFieldsWith enum1 m fp th).map stripDescription
      = (detectTemporaryFieldsWith enum2 m fp th).map stripDescription
    ∧ (detectDivergentChangeWith enum1 m fp th).map stripDescription
      = (detectDivergentChangeWith enum2 m fp th).map stripDescription := by
  constructor
  · unfold detectTemporaryFieldsWith
    rw [map_flatMap_eq, map_flatMap_eq]
    refine flatMap_congr_mem _ (fun t _ => ?_)
    cases t with
    | func f => rfl
    | cls c => exact stripDescription_tempClass enum1 enum2 fp th c
    | other => rfl
  · unfold detectDivergentChangeWith
    rw [map_flatMap_eq, map_flatMap_eq]
    refine flatMap_congr_mem _ (fun t _ => ?_)
    cases t with
    | func f => rfl
    | cls c => exact stripDescription_divClass enum1 enum2 fp th c
    | other => rfl

/-- C5 (counterexample).  Under `LONG_METHOD_LINES = 2` the twelve-line
function exceeds `1.5 ×` the threshold (`= 3`), yet the emitted Long
Method finding's severity is the dataclass default `''`, not `high`. -/
theorem C5_counterexample :
    (detectLongMethods exLongModule "f.py" exCodeTh).map (fun s => s.severity) = [""]
    ∧ ((actualLines exLongModule.fileContent exLongFunc.fromlineno exLongFunc.tolineno : ℕ) : ℚ)
        > qMul (mkRat 3 2) exCodeTh.LONG_METHOD_LINES := by
  refine ⟨by decide, by decide⟩

/-- C5 (amended).  No pyexamine code-smell rule derives severity from how
far the metric exceeds the threshold: every finding a rule emits carries
that rule's one fixed severity — the `CodeSmell` dataclass default `''`
for Long Method, Primitive Obsession and Long Parameter List, `medium`
for Data Clumps, Alternative Classes and Divergent Change, and `low` for
Temporary Field. -/
theorem C5_fixed_severity (m : CModule) (fp : String) (th : CThresholds)
    (enum : List String → List String) :
    ((detectLongMethods m fp th).all (fun s => s.severity == "") = true)
    ∧ ((detectPrimitiveObsession m fp th).all (fun s => s.severity == "") = true)
    ∧ ((detectLongParameterLists m fp th).all (fun s => s.severity == "") = true)
    ∧ ((detectDataClumps m fp th).all (fun s => s.severity == "medium") = true)
    ∧ ((detectTemporaryFieldsWith enum m fp th).all (fun s => s.severity == "low") = true)
    ∧ ((detectAlternativeClasses m fp th).all (fun s => s.severity == "medium") = true)
    ∧ ((detectDivergentChangeWith enum m fp th).all (fun s => s.severity == "medium") = true) := by
  refine ⟨?_, ?_, ?_, ?_, ?_, ?_, ?_⟩
  · unfold detectLongMethods
    rw [all_flatMap_eq, List.all_eq_true]
    intro t ht
    cases t with
    | func f =>
      simp only [detectLongMethodsFunc]
      repeat' split
      all_goals rfl
    | cls c => rfl
    | other => rfl
  · unfold detectPrimitiveObsession
    rw [all_flatMap_eq, List.all_eq_true]
    intro t ht
    cases t with
    | func f =>
      simp only [detectPrimitiveObsessionFunc]
      repeat' split
      all_goals rfl
    | cls c => rfl
    | other => rfl
  · unfold detectLongParameterLists
    rw [all_flatMap_eq, List.all_eq_true]
    intro t ht
    cases t with
    | func f =>
      simp only [detectLongParameterListsFunc]
      repeat' split
      all_goals rfl
    | cls c => rfl
    | other => rfl
  · unfold detectDataClumps
    rw [all_flatMap_eq, List.all_eq_true]
    intro kv hkv
    repeat' split
    all_goals rfl
  · unfold detectTemporaryFieldsWith
    rw [all_flatMap_eq, List.all_eq_true]
    intro t ht
    cases t with
    | func f => rfl
    | cls c =>
      simp only [detectTemporaryFieldsClass]
      repeat' split
      all_goals rfl
    | other => rfl
  · unfold detectAlternativeClasses
    rw [all_flatMap_eq, List.all_eq_true]
    intro kv hkv
    repeat' split
    all_goals first
      | rfl
      | (dsimp only
         repeat' split
         all_goals rfl)
  · unfold detectDivergentChangeWith
    rw [all_flatMap_eq, List.all_eq_true]
    intro t ht
    cases t with
    | func f => rfl
    | cls c =>
      simp only [detectDivergentChangeClass]
      repeat' split
      all_goals rfl
    | other => rfl

/-- C6 (code bug).  `detect_alternative_classes` computes
`share_base_class` as "some class of the partition has some base class"
(`len(\x7bbase.name for cls in classes for base in cls.bases\x7d) > 0`),
not as the existence of a base class shared by the partition: the
partition `Alpha(BaseOne)`, `Beta(BaseTwo)` — identical two-method
interface, meeting the threshold `2`, with two distinct unshared bases —
yields no finding, while the same partition with the bases removed is
flagged.  The claim (and the source's own comment) requires the
distinct-unshared-bases partition to be flagged as well. -/
theorem C6_shared_base_check_buggy :
    altKey exAlpha = altKey exBeta
    ∧ (altGroups exAltModule).map (fun kv => kv.2) = [["Alpha", "Beta"]]
    ∧ ((2 : ℚ) ≥ exCodeTh.ALTERNATIVE_CLASSES_THRESHOLD)
    ∧ altBaseNames exAltModule ["Alpha", "Beta"] = ["BaseOne", "BaseTwo"]
    ∧ detectAlternativeClasses exAltModule "a.py" exCodeTh = []
    ∧ (detectAlternativeClasses exAltModuleNoBases "a.py" exCodeTh).map (fun s => s.name)
        = ["Alternative Classes with Different Interfaces"] := by
  refine ⟨by decide, by decide, by decide, by decide, by decide, by decide⟩

/-- C1 (counterexample).  A class whose weighted MPC (`3`) strictly
exceeds `MPC_THRESHOLD` (`1`): `detect_mpc` itself would emit the
`High Message Passing Coupling (MPC)` finding, but the pyexamine
`detect_smells` dispatch never runs `detect_mpc`, so the structural run
over the project emits nothing at all. -/
theorem C1_counterexample :
    mpcWeighted exMpcClass > exThresholdsMpc.MPC_THRESHOLD
    ∧ (detectMpc exMpcProject exThresholdsMpc).map (fun s => s.name)
        = ["High Message Passing Coupling (MPC)"]
    ∧ detectSmellsStructural exMpcProject exThresholdsMpc = [] := by
  refine ⟨by decide, by decide, by decide⟩

/-- C1 (amended).  The pyexamine structural `detect_smells` dispatch runs
exactly the twelve rules NOM, LCOM, RFC, NOCC, DIT, LOC, NOC, cyclomatic
complexity, fan-out, fan-in, file length and branches: every finding of a
structural run carries one of their thirteen finding names, and the MPC
finding name (like those of WMPC, SIZE2, WAC and CBO) is not among them —
those rules are defined by the detector but never dispatched. -/
theorem C1_structural_dispatch (p : SProject) (th : SThresholds) :
    ((detectSmellsStructural p th).all
        (fun s => structuralRunNames.contains s.name) = true)
    ∧ structuralRunNames.contains "High Message Passing Coupling (MPC)" = false := by
  refine ⟨?_, by decide⟩
  unfold detectSmellsStructural
  split
  · rfl
  · simp only [List.all_append, Bool.and_eq_true]
    refine ⟨⟨⟨⟨⟨⟨⟨⟨⟨⟨⟨?_, ?_⟩, ?_⟩, ?_⟩, ?_⟩, ?_⟩, ?_⟩, ?_⟩, ?_⟩, ?_⟩, ?_⟩, ?_⟩
    · simp only [detectNom]
      rw [all_flatMap_eq, List.all_eq_true]
      intro e he
      simp only [detectNomClass]
      repeat' split
      all_goals rfl
    · simp only [detectLcom]
      rw [all_flatMap_eq, List.all_eq_true]
      intro e he
      simp only [detectLcomClass]
      repeat' split
      all_goals rfl
    · simp only [detectRfc]
      rw [all_flatMap_eq, List.all_eq_true]
      intro e he
      simp only [detectRfcClass]
      repeat' split
      all_goals rfl
    · simp only [detectNocc]
      rw [all_flatMap_eq, List.all_eq_true]
      intro e he
      simp only [detectNoccModule]
      repeat' split
      all_goals rfl
    · simp only [detectDit]
      rw [all_flatMap_eq, List.all_eq_true]
      intro e he
      simp only [detectDitNode]
      repeat' split
      all_goals rfl
    · simp only [detectLoc]
      rw [all_flatMap_eq, List.all_eq_true]
      intro e he
      simp only [detectLocModule]
      repeat' split
      all_goals rfl
    · simp only [detectNoc]
      repeat' split
      all_goals rfl
    · simp only [detectCyclomaticComplexity]
      rw [all_flatMap_eq, List.all_eq_true]
      intro e he
      simp only [detectCycloClass]
      rw [all_flatMap_eq, List.all_eq_true]
      intro mm hm
      repeat' split
      all_goals rfl
    · simp only [detectFanout]
      rw [all_flatMap_eq, List.all_eq_true]
      intro e he
      simp only [detectFanoutNode]
      repeat' split
      all_goals rfl
    · simp only [detectFanin]
      rw [all_flatMap_eq, List.all_eq_true]
      intro e he
      simp only [detectFaninNode]
      repeat' split
      all_goals rfl
    · simp only [detectFileLength]
      rw [all_flatMap_eq, List.all_eq_true]
      intro e he
      simp only [detectFileLengthModule]
      repeat' split
      all_goals rfl
    · simp only [detectBranches]
      rw [all_flatMap_eq, List.all_eq_true]
      intro e he
      simp only [detectBranchesClass]
      rw [all_flatMap_eq, List.all_eq_true]
      intro mm hm
      repeat' split
      all_goals rfl

end PyExamine
